import Mathlib

/- Verification of the PiMonitor configuration and Wi-Fi management service
(pimonitor_api.py).  Python strings are modelled as lists of characters and
a file as the character list of its full content; the Python iteration over
the lines of a file is the explicit line split of that content.  External
collaborators enter as explicit parameters: the stdout of a successful
wpa_passphrase run (or its failure), and the outcome of the append write. -/

/-- Characters of a Python string. -/
abbrev Str := List Char

/-- Characters of a Lean string literal, used to transcribe Python literals. -/
def strL (s : String) : Str := s.data

/-- Whitespace characters recognised by Python str.strip (ASCII range; the
service only ever feeds it ASCII configuration text). -/
def isPySpace (c : Char) : Bool :=
  c = ' ' || c = '\t' || c = '\n' || c = '\r' || c = '\x0b' || c = '\x0c'

/-- Python s.lstrip(). -/
def lstrip (s : Str) : Str := s.dropWhile isPySpace

/-- Python s.rstrip(). -/
def rstrip (s : Str) : Str := (s.reverse.dropWhile isPySpace).reverse

/-- Python s.strip(). -/
def pyStrip (s : Str) : Str := rstrip (lstrip s)

/-- Python s.strip(c) for a single character c: removes every leading and
every trailing occurrence of c. -/
def stripChar (c : Char) (s : Str) : Str :=
  ((s.dropWhile (· = c)).reverse.dropWhile (· = c)).reverse

/-- Python s.split(sep, 1) when sep occurs in s: the parts before and after
the first occurrence; none when sep does not occur (the code guards the
split with a containment test). -/
def splitFirst (sep : Char) : Str → Option (Str × Str)
  | [] => none
  | c :: rest =>
    if c = sep then some ([], rest)
    else
      match splitFirst sep rest with
      | none => none
      | some (a, b) => some (c :: a, b)

/-- Pieces of a string split at every newline (n newlines give n+1 pieces):
the lines Python iterates over, each without its terminator, except that a
trailing newline contributes one final empty piece (which every parser in
the service skips). -/
def splitLines : Str → List Str
  | [] => [[]]
  | c :: rest =>
    if c = '\n' then [] :: splitLines rest
    else
      match splitLines rest with
      | [] => [[c]]
      | l :: ls => (c :: l) :: ls

/-- Python "\n".join(lines). -/
def joinNL : List Str → Str
  | [] => []
  | [l] => l
  | l :: l2 :: ls => l ++ '\n' :: joinNL (l2 :: ls)

/-- Python "needle in hay" substring test. -/
def containsSub (needle hay : Str) : Bool :=
  needle.isPrefixOf hay ||
    match hay with
    | [] => false
    | _ :: t => containsSub needle t

/-- Python dict assignment d[k] = v on an insertion-ordered dict: an
existing key keeps its position, a new key goes to the end. -/
def dictInsert (k v : Str) : List (Str × Str) → List (Str × Str)
  | [] => [(k, v)]
  | (k0, v0) :: rest =>
    if k0 = k then (k, v) :: rest else (k0, v0) :: dictInsert k v rest

/-- One line of load_config: strip, skip blank and comment lines, require an
equals sign, split at the first one, strip key and value, store. -/
def loadConfigLine (cfg : List (Str × Str)) (raw : Str) : List (Str × Str) :=
  let line := pyStrip raw
  if line.isEmpty then cfg
  else if (strL "#").isPrefixOf line then cfg
  else
    match splitFirst '=' line with
    | none => cfg
    | some kv => dictInsert (pyStrip kv.1) (pyStrip kv.2) cfg

/-- load_config from pimonitor_api.py, over the lines of CONFIG_FILE. -/
def load_config (ls : List Str) : List (Str × Str) :=
  ls.foldl loadConfigLine []

/-- load_config applied to a full file content. -/
def load_config_str (content : Str) : List (Str × Str) :=
  load_config (splitLines content)

/-- save_config from pimonitor_api.py: one key=value line per entry, joined
with newlines, plus a trailing newline. -/
def save_config (cfg : List (Str × Str)) : Str :=
  joinNL (cfg.map fun kv => kv.1 ++ '=' :: kv.2) ++ ['\n']

/-- Response of the POST branch of api_config. -/
structure ConfigPostResult where
  httpStatus : Nat
  status : Str
  cfg : List (Str × Str)
  file : Str
deriving DecidableEq

/-- POST branch of api_config: a body that fails to parse (or a null body)
is replaced by the empty object; the keys present in the body are merged
into the loaded configuration; the result is saved and answered with status
ok.  The str(v) coercion of body values is left to the caller: body carries
already-stringified pairs, none standing for a malformed body. -/
def api_config_post (ls : List Str) (body : Option (List (Str × Str))) :
    ConfigPostResult :=
  let cfg := load_config ls
  let data := body.getD []
  let cfg2 := data.foldl (fun c kv => dictInsert kv.1 kv.2 c) cfg
  ⟨200, strL "ok", cfg2, save_config cfg2⟩

/-- wifi_network_exists from pimonitor_api.py on an accessible file with the
given full content: a raw substring test for the needle ssid="<ssid>". -/
def wifi_network_exists (content : Str) (ssid : Str) : Bool :=
  containsSub (strL "ssid=\"" ++ ssid ++ ['"']) content

/-- Lines kept from the stdout of a successful wpa_passphrase run: each
line is stripped; blank lines, comment lines and lines starting with
network= are dropped (the closing brace line of the tool output is kept). -/
def wpaKeptLines (out : Str) : List Str :=
  (splitLines out).filterMap fun raw =>
    let l := pyStrip raw
    if l.isEmpty || (strL "#").isPrefixOf l || (strL "network=").isPrefixOf l
    then none else some l

/-- Python truthiness of the optional psk argument of
generate_network_block. -/
def pskTruthy : Option Str → Bool
  | none => false
  | some p => !p.isEmpty

/-- Line list of the block built by generate_network_block.  wpaOut is the
stdout of the external wpa_passphrase run when it succeeded and none when
the tool failed (which selects the plaintext psk fallback); it is consulted
only when the psk is truthy. -/
def genBlockLines (ssid : Str) (psk : Option Str) (hidden : Bool)
    (wpaOut : Option Str) : List Str :=
  let ls := [strL "network=\x7b", strL "    ssid=\"" ++ ssid ++ ['"']]
  let ls := if hidden then ls ++ [strL "    scan_ssid=1"] else ls
  let ls :=
    if pskTruthy psk then
      let blockLines :=
        match wpaOut with
        | some out => wpaKeptLines out
        | none => [strL "psk=\"" ++ psk.getD [] ++ ['"']]
      ls ++ blockLines.map (fun l => strL "    " ++ l)
    else ls ++ [strL "    key_mgmt=NONE"]
  ls ++ [strL "\x7d"]

/-- generate_network_block from pimonitor_api.py. -/
def generate_network_block (ssid : Str) (psk : Option Str) (hidden : Bool)
    (wpaOut : Option Str) : Str :=
  joinNL (genBlockLines ssid psk hidden wpaOut)

/-- Append write of POST api_wifi: the file is opened in append mode and
the string made of a newline, the block and a newline is written after the
existing content. -/
def appendWifi (content block : Str) : Str :=
  content ++ '\n' :: (block ++ ['\n'])

/-- Record of one saved network as built by list_wifi_networks.  priority
is an Int when Python int() accepts the value, otherwise the raw string. -/
structure WifiNetwork where
  ssid : Str
  hidden : Bool
  security : Str
  priority : Option (Int ⊕ Str)
  disabled : Option Str
deriving DecidableEq

/-- Block dict under construction: hidden and security carry their initial
values, the other keys are initially absent. -/
structure BlockAcc where
  ssid : Option Str
  hidden : Bool
  security : Str
  priority : Option (Int ⊕ Str)
  disabled : Option Str
deriving DecidableEq

/-- Fresh block dict: hidden False, security unknown. -/
def initBlock : BlockAcc := ⟨none, false, strL "unknown", none, none⟩

/-- Closing a block: emitted when an ssid key was seen, discarded
otherwise. -/
def closeBlock (b : BlockAcc) : Option WifiNetwork :=
  match b.ssid with
  | some s => some ⟨s, b.hidden, b.security, b.priority, b.disabled⟩
  | none => none

/-- Nested helper for Python int(): digit run after the first digit, with
single underscores allowed between digits. -/
def digitsCore : Nat → Str → Option Nat
  | acc, [] => some acc
  | acc, c :: rest =>
    if c.isDigit then digitsCore (acc * 10 + (c.toNat - 48)) rest
    else if c = '_' then
      match rest with
      | [] => none
      | d :: rest2 =>
        if d.isDigit then digitsCore (acc * 10 + (d.toNat - 48)) rest2 else none
    else none

/-- Nested helper for Python int(): a digit run must begin with a digit. -/
def digitsStart : Str → Option Nat
  | [] => none
  | c :: rest => if c.isDigit then digitsCore (c.toNat - 48) rest else none

/-- Python int(s) for a str s: optional surrounding whitespace, optional
sign, then a nonempty digit sequence possibly with single underscores
between digits; none when int() raises ValueError. -/
def pyInt (s : Str) : Option Int :=
  match pyStrip s with
  | '+' :: rest => (digitsStart rest).map (fun n => (n : Int))
  | '-' :: rest => (digitsStart rest).map (fun n => -(n : Int))
  | rest => (digitsStart rest).map (fun n => (n : Int))

/-- Key dispatch of list_wifi_networks for one key=value line inside a
block, after key strip and value strip plus quote strip. -/
def applyKey (b : BlockAcc) (k v : Str) : BlockAcc :=
  if k = strL "ssid" then { b with ssid := some v }
  else if k = strL "scan_ssid" then { b with hidden := decide (v = strL "1") }
  else if k = strL "key_mgmt" then
    { b with security := if v = strL "NONE" then strL "open" else v }
  else if k = strL "priority" then
    { b with priority := some (match pyInt v with
        | some n => Sum.inl n
        | none => Sum.inr v) }
  else if k = strL "disabled" then { b with disabled := some v }
  else b

/-- Parse state of list_wifi_networks: the block being built, when inside
one, and the networks collected so far. -/
abbrev ListState := Option BlockAcc × List WifiNetwork

/-- One line of the list_wifi_networks scan.  A line opening a block is
recognised first, whatever the current state; outside a block every other
line is skipped; inside a block the closing brace emits or discards the
block, blank and comment lines and lines without an equals sign are
skipped, and key=value lines update the block dict. -/
def listStep (st : ListState) (raw : Str) : ListState :=
  let line := pyStrip raw
  if (strL "network=\x7b").isPrefixOf line then (some initBlock, st.2)
  else
    match st.1 with
    | none => st
    | some b =>
      if line = strL "\x7d" then
        (none, match closeBlock b with
          | some w => st.2 ++ [w]
          | none => st.2)
      else if line.isEmpty || (strL "#").isPrefixOf line then (some b, st.2)
      else
        match splitFirst '=' line with
        | none => (some b, st.2)
        | some kv =>
          (some (applyKey b (pyStrip kv.1) (stripChar '"' (pyStrip kv.2))), st.2)

/-- list_wifi_networks from pimonitor_api.py over the file content. -/
def list_wifi_networks (content : Str) : List WifiNetwork :=
  ((splitLines content).foldl listStep (none, [])).2

/-- Python s.lower() for the ASCII strings the truthy set is compared
against. -/
def lowerStr (s : Str) : Str := s.map Char.toLower

/-- Hidden field coercion of POST api_wifi: a string body value is matched
lowercased against the truthy set, any other value is taken through bool()
(modelled as an already-boolean value). -/
def parseHidden : Str ⊕ Bool → Bool
  | Sum.inl s => [strL "1", strL "true", strL "yes", strL "on"].contains (lowerStr s)
  | Sum.inr b => b

/-- Response of the POST branch of api_wifi. -/
structure WifiPostResult where
  httpStatus : Nat
  status : Str
  error : Option Str
  ssid : Option Str
  file : Str
deriving DecidableEq

/-- POST branch of api_wifi.  ssidIn, pskIn and hiddenIn are the body
fields (none standing for an absent field); wpaOut is the stdout of a
successful external wpa_passphrase run, none for tool failure; writeErr is
the message of the exception raised by the append write, none when the
write succeeds.  reconfigure_wifi runs after a successful write and only
affects the reconfigured field of the ok response, so it is not modelled. -/
def api_wifi_post (file : Str) (ssidIn : Option Str) (pskIn : Option Str)
    (hiddenIn : Str ⊕ Bool) (wpaOut : Option Str) (writeErr : Option Str) :
    WifiPostResult :=
  let ssid := pyStrip (ssidIn.getD [])
  let hidden := parseHidden hiddenIn
  if ssid.isEmpty then
    ⟨400, strL "error", some (strL "SSID is required"), none, file⟩
  else if wifi_network_exists file ssid then
    ⟨200, strL "exists", none, some ssid, file⟩
  else
    let psk1 := pskIn.map pyStrip
    let pskValue : Option Str :=
      match psk1 with
      | none => none
      | some p => if p.isEmpty then none else some p
    let block := generate_network_block ssid pskValue hidden wpaOut
    match writeErr with
    | some msg => ⟨500, strL "error", some msg, none, file⟩
    | none => ⟨200, strL "ok", none, some ssid, appendWifi file block⟩

/-- Canonical stdout of a successful run of the external wpa_passphrase
tool (declared out of scope by the spec): the network frame, the quoted
ssid line, the commented plaintext psk and the derived psk hash, each on
its own line. -/
def wpaPassphraseOut (ssid psk hash : Str) : Str :=
  joinNL [strL "network=\x7b", strL "\tssid=\"" ++ ssid ++ ['"'],
    strL "\t#psk=\"" ++ psk ++ ['"'], strL "\tpsk=" ++ hash, strL "\x7d", []]

/-- One POST api_wifi addition: the body fields plus the outcome of the
external passphrase tool for this request (some hash = tool success
printing that hash, none = tool failure). -/
structure AddReq where
  ssid : Str
  psk : Option Str
  hidden : Bool
  toolHash : Option Str
deriving DecidableEq

/-- Normalised psk, exactly as api_wifi computes it. -/
def reqPskValue (r : AddReq) : Option Str :=
  match r.psk.map pyStrip with
  | none => none
  | some p => if p.isEmpty then none else some p

/-- wpaOut parameter induced by the modelled tool outcome. -/
def reqWpaOut (r : AddReq) : Option Str :=
  r.toolHash.map fun h => wpaPassphraseOut r.ssid ((reqPskValue r).getD []) h

/-- File content after one POST api_wifi carrying the request fields, with
a succeeding write. -/
def addNetworkFile (f : Str) (r : AddReq) : Str :=
  (api_wifi_post f (some r.ssid) r.psk (Sum.inr r.hidden) (reqWpaOut r) none).file

/-- File content after a sequence of POST api_wifi additions applied to an
initially empty credentials file. -/
def buildWifiFile (reqs : List AddReq) : Str :=
  reqs.foldl addNetworkFile []

/-- Side conditions on one request under which its appended block parses
back as one record: the ssid is nonempty, already stripped, and free of
quote and newline characters; a present psk has no newline; a successful
tool run printed a single-token hash. -/
def reqOKb (r : AddReq) : Bool :=
  !r.ssid.isEmpty && (pyStrip r.ssid == r.ssid) &&
    !r.ssid.contains '"' && !r.ssid.contains '\n' &&
    (match r.psk with
     | none => true
     | some p => !p.contains '\n') &&
    (match r.toolHash with
     | none => true
     | some h => (pyStrip h == h) && !h.contains '\n')

/-- Per-request side conditions plus, threaded through the growing file,
the absence of each request ssid needle from the file built so far (the
condition under which wifi_network_exists lets the append happen). -/
def addAllOK : Str → List AddReq → Bool
  | _, [] => true
  | f, r :: rs =>
    reqOKb r && !wifi_network_exists f r.ssid && addAllOK (addNetworkFile f r) rs

/-- Record that list_wifi_networks reads back for one appended request:
the ssid and hidden arguments, security open exactly when no psk was kept
(neither the tool output nor the plaintext fallback carries a key_mgmt
line, so a protected network reads back as unknown). -/
def expectedRecord (r : AddReq) : WifiNetwork :=
  ⟨r.ssid, r.hidden,
   if (reqPskValue r).isSome then strL "unknown" else strL "open",
   none, none⟩

/-- Key dispatch of the spec description of list(): recognises ssid,
scan_ssid (1 means hidden), key_mgmt (NONE means security open, any other
value kept raw), priority (an integer when possible, else the raw string)
and disabled; unknown keys are ignored. -/
def specApplyKey (b : BlockAcc) (k v : Str) : BlockAcc :=
  if k = strL "ssid" then { b with ssid := some v }
  else if k = strL "scan_ssid" then { b with hidden := decide (v = strL "1") }
  else if k = strL "key_mgmt" then
    { b with security := if v = strL "NONE" then strL "open" else v }
  else if k = strL "priority" then
    { b with priority := some (match pyInt v with
        | some n => Sum.inl n
        | none => Sum.inr v) }
  else if k = strL "disabled" then { b with disabled := some v }
  else b

/-- Parser state machine following the words of the spec for list(): scan
the lines for network blocks with an outside-block and an inside-block
state; a block-opening line enters a fresh block; the closing brace emits
the block when it has an ssid and discards it otherwise; blank lines,
comment lines and lines without an equals sign inside a block are skipped;
recognised keys update the block through specApplyKey, with values
stripped of whitespace and surrounding quotes.  Records appear in file
order. -/
def listSpecMachine : Option BlockAcc → List Str → List WifiNetwork
  | _, [] => []
  | st, raw :: rest =>
    let line := pyStrip raw
    if (strL "network=\x7b").isPrefixOf line then
      listSpecMachine (some initBlock) rest
    else
      match st with
      | none => listSpecMachine none rest
      | some b =>
        if line = strL "\x7d" then
          match closeBlock b with
          | some w => w :: listSpecMachine none rest
          | none => listSpecMachine none rest
        else if line.isEmpty || (strL "#").isPrefixOf line then
          listSpecMachine (some b) rest
        else
          match splitFirst '=' line with
          | none => listSpecMachine (some b) rest
          | some kv =>
            listSpecMachine
              (some (specApplyKey b (pyStrip kv.1) (stripChar '"' (pyStrip kv.2))))
              rest

-- Infrastructure lemmas about the string primitives.

lemma splitLines_ne_nil (s : Str) : splitLines s ≠ [] := by
  induction s with
  | nil => simp [splitLines]
  | cons c rest ih =>
    simp only [splitLines]
    split
    · simp
    · cases h : splitLines rest with
      | nil => simp
      | cons l ls => simp

lemma splitLines_cons_newline (s : Str) :
    splitLines ('\n' :: s) = [] :: splitLines s := by
  simp [splitLines]

lemma splitLines_cons_other (c : Char) (s : Str) (h : ¬ c = '\n') :
    splitLines (c :: s) =
      match splitLines s with
      | [] => [[c]]
      | l :: ls => (c :: l) :: ls := by
  simp [splitLines, h]

lemma splitLines_append (a b : Str) :
    splitLines (a ++ '\n' :: b) = splitLines a ++ splitLines b := by
  induction a with
  | nil => simp [splitLines]
  | cons c rest ih =>
    by_cases hc : c = '\n'
    · subst hc
      rw [List.cons_append, splitLines_cons_newline, splitLines_cons_newline, ih]
      simp
    · rw [List.cons_append, splitLines_cons_other _ _ hc,
        splitLines_cons_other _ _ hc, ih]
      cases h : splitLines rest with
      | nil => exact absurd h (splitLines_ne_nil rest)
      | cons l ls => simp

lemma splitLines_single (l : Str) (h : '\n' ∉ l) : splitLines l = [l] := by
  induction l with
  | nil => rfl
  | cons c rest ih =>
    have hc : ¬ c = '\n' := fun e => h (e ▸ List.mem_cons_self c rest)
    have hr : '\n' ∉ rest := fun m => h (List.mem_cons_of_mem c m)
    simp only [splitLines, if_neg hc, ih hr]

lemma mem_splitLines_no_newline (s : Str) : ∀ l ∈ splitLines s, '\n' ∉ l := by
  induction s with
  | nil => simp [splitLines]
  | cons c rest ih =>
    by_cases hc : c = '\n'
    · subst hc
      simpa [splitLines] using ih
    · simp only [splitLines, if_neg hc]
      cases h : splitLines rest with
      | nil => exact absurd h (splitLines_ne_nil rest)
      | cons l ls =>
        intro x hx
        rcases List.mem_cons.mp hx with h1 | h2
        · subst h1
          intro hm
          rcases List.mem_cons.mp hm with e | hl
          · exact hc e.symm
          · exact ih l (h ▸ List.mem_cons_self l ls) hl
        · exact ih x (h ▸ List.mem_cons_of_mem l h2)

lemma joinNL_cons (l : Str) (ls : List Str) (h : ls ≠ []) :
    joinNL (l :: ls) = l ++ '\n' :: joinNL ls := by
  cases ls with
  | nil => exact absurd rfl h
  | cons a t => rfl

lemma splitLines_joinNL (ls : List Str) (h1 : ls ≠ [])
    (h2 : ∀ l ∈ ls, '\n' ∉ l) : splitLines (joinNL ls) = ls := by
  induction ls with
  | nil => exact absurd rfl h1
  | cons l t ih =>
    cases t with
    | nil => exact splitLines_single l (h2 l (by simp))
    | cons a t2 =>
      rw [joinNL_cons l _ (by simp), splitLines_append,
        splitLines_single l (h2 l (by simp)),
        ih (by simp) (fun x hx => h2 x (List.mem_cons_of_mem _ hx))]
      simp

lemma lstrip_cons (c : Char) (s : Str) :
    lstrip (c :: s) = if isPySpace c then lstrip s else c :: s := by
  simp [lstrip, List.dropWhile_cons]

lemma lstrip_cons_neg (c : Char) (s : Str) (h : isPySpace c = false) :
    lstrip (c :: s) = c :: s := by
  rw [lstrip_cons, h]; simp

lemma lstrip_sublist (s : Str) : (lstrip s).Sublist s :=
  List.dropWhile_sublist _

lemma rstrip_sublist (s : Str) : (rstrip s).Sublist s := by
  have h := (@List.dropWhile_sublist Char s.reverse isPySpace).reverse
  simpa [rstrip] using h

lemma pyStrip_sublist (s : Str) : (pyStrip s).Sublist s :=
  (rstrip_sublist _).trans (lstrip_sublist s)

lemma lstrip_eq_of_pyStrip (s : Str) (h : pyStrip s = s) : lstrip s = s := by
  have hl : s.length ≤ (lstrip s).length := by
    calc s.length = (pyStrip s).length := by rw [h]
    _ ≤ (lstrip s).length := (rstrip_sublist (lstrip s)).length_le
  exact (lstrip_sublist s).eq_of_length
    (le_antisymm (lstrip_sublist s).length_le hl)

lemma rstrip_eq_of_pyStrip (s : Str) (h : pyStrip s = s) : rstrip s = s := by
  have h1 := lstrip_eq_of_pyStrip s h
  calc rstrip s = rstrip (lstrip s) := by rw [h1]
  _ = s := h

lemma rstrip_append (s t : Str) (ht : t ≠ []) (h : rstrip t = t) :
    rstrip (s ++ t) = s ++ t := by
  have hrev : List.dropWhile isPySpace t.reverse = t.reverse := by
    have := congrArg List.reverse h
    simpa [rstrip] using this
  cases hc : t.reverse with
  | nil => exact absurd (by simpa using congrArg List.reverse hc) ht
  | cons c r =>
    have hcne : isPySpace c = false := by
      rw [hc, List.dropWhile_cons] at hrev
      by_cases hp : isPySpace c = true
      · rw [if_pos hp] at hrev
        have := (@List.dropWhile_sublist Char r isPySpace).length_le
        rw [hrev] at this
        simp at this
      · simpa using hp
    have : rstrip (s ++ t) =
        (List.dropWhile isPySpace (c :: (r ++ s.reverse))).reverse := by
      simp [rstrip, List.reverse_append, hc]
    rw [this, List.dropWhile_cons, hcne]
    have ht2 : r.reverse ++ [c] = t := by
      have h3 := congrArg List.reverse hc
      simp at h3
      exact h3.symm
    simp only [Bool.false_eq_true, if_false, List.reverse_cons,
      List.reverse_append, List.reverse_reverse, List.append_assoc, ht2]

lemma rstrip_single (c : Char) (h : isPySpace c = false) : rstrip [c] = [c] := by
  simp [rstrip, List.dropWhile_cons, h]

lemma rstrip_append_single (s : Str) (c : Char) (h : isPySpace c = false) :
    rstrip (s ++ [c]) = s ++ [c] :=
  rstrip_append s [c] (by simp) (rstrip_single c h)

lemma pyStrip_eq_self (s : Str) (h1 : lstrip s = s) (h2 : rstrip s = s) :
    pyStrip s = s := by
  rw [pyStrip, h1, h2]

lemma head?_of_append (l t : Str) (c : Char) (h : l.head? = some c) :
    (l ++ t).head? = some c := by
  cases l with
  | nil => simp at h
  | cons a r => simpa using h

lemma lstrip_head (s : Str) :
    ∀ c, (lstrip s).head? = some c → isPySpace c = false := by
  intro c hc
  have h := List.head?_dropWhile_not isPySpace s
  rw [show List.dropWhile isPySpace s = lstrip s from rfl, hc] at h
  exact h

lemma rstrip_last (s : Str) :
    ∀ c, (rstrip s).getLast? = some c → isPySpace c = false := by
  intro c hc
  have h := List.head?_dropWhile_not isPySpace s.reverse
  rw [show (rstrip s).getLast? = (s.reverse.dropWhile isPySpace).head? from by
    rw [rstrip, List.getLast?_reverse]] at hc
  rw [hc] at h
  exact h

lemma rstrip_front (s : Str) : rstrip s <+: s := by
  rw [show s = s.reverse.reverse from (List.reverse_reverse s).symm, rstrip]
  rw [ List.reverse_prefix]
  simpa using @List.dropWhile_suffix Char s.reverse.reverse.reverse isPySpace

lemma pyStrip_head (s : Str) :
    ∀ c, (pyStrip s).head? = some c → isPySpace c = false := by
  intro c hc
  obtain ⟨t, ht⟩ := rstrip_front (lstrip s)
  exact lstrip_head s c (by rw [← ht]; exact head?_of_append _ _ _ hc)

lemma pyStrip_last (s : Str) :
    ∀ c, (pyStrip s).getLast? = some c → isPySpace c = false :=
  rstrip_last (lstrip s)

lemma lstrip_eq_self_of_head (s : Str)
    (h : ∀ c, s.head? = some c → isPySpace c = false) : lstrip s = s := by
  cases s with
  | nil => rfl
  | cons c r => exact lstrip_cons_neg c r (h c rfl)

lemma rstrip_eq_self_of_last (s : Str)
    (h : ∀ c, s.getLast? = some c → isPySpace c = false) : rstrip s = s := by
  cases hr : s.reverse with
  | nil =>
    have : s = [] := by simpa using congrArg List.reverse hr
    subst this; rfl
  | cons c r =>
    have hc : isPySpace c = false := h c (by rw [← List.head?_reverse, hr]; rfl)
    rw [rstrip, hr, List.dropWhile_cons, hc]
    simp only [Bool.false_eq_true, if_false, ← hr, List.reverse_reverse]

lemma pyStrip_idem (s : Str) : pyStrip (pyStrip s) = pyStrip s :=
  pyStrip_eq_self _ (lstrip_eq_self_of_head _ (pyStrip_head s))
    (rstrip_eq_self_of_last _ (pyStrip_last s))

lemma splitFirst_eq (k v : Str) (hk : '=' ∉ k) :
    splitFirst '=' (k ++ '=' :: v) = some (k, v) := by
  induction k with
  | nil => simp [splitFirst]
  | cons c t ih =>
    have hc : ¬ c = '=' := fun e => hk (e ▸ List.mem_cons_self c t)
    have ht : '=' ∉ t := fun m => hk (List.mem_cons_of_mem c m)
    simp [splitFirst, hc, ih ht]

lemma splitFirst_none (s : Str) (h : '=' ∉ s) : splitFirst '=' s = none := by
  induction s with
  | nil => rfl
  | cons c t ih =>
    have hc : ¬ c = '=' := fun e => h (e ▸ List.mem_cons_self c t)
    have ht : '=' ∉ t := fun m => h (List.mem_cons_of_mem c m)
    simp [splitFirst, hc, ih ht]

lemma splitFirst_parts (sep : Char) (s k v : Str)
    (h : splitFirst sep s = some (k, v)) : s = k ++ sep :: v ∧ sep ∉ k := by
  induction s generalizing k v with
  | nil => simp [splitFirst] at h
  | cons c t ih =>
    by_cases hc : c = sep
    · subst hc
      simp [splitFirst] at h
      obtain ⟨h1, h2⟩ := h
      subst h1; subst h2
      simp
    · rw [show splitFirst sep (c :: t) =
          (match splitFirst sep t with
           | none => none
           | some (a, b) => some (c :: a, b)) from by simp [splitFirst, hc]] at h
      cases hsf : splitFirst sep t with
      | none => rw [hsf] at h; simp at h
      | some ab =>
        rw [hsf] at h
        obtain ⟨a, b⟩ := ab
        simp at h
        obtain ⟨h1, h2⟩ := h
        subst h2
        obtain ⟨ht1, ht2⟩ := ih a b hsf
        constructor
        · rw [← h1, ht1]; simp
        · rw [← h1]
          intro hm
          rcases List.mem_cons.mp hm with e | hm2
          · exact hc e.symm
          · exact ht2 hm2

lemma containsSub_of_isPrefixOf (n hay : Str) (h : n.isPrefixOf hay = true) :
    containsSub n hay = true := by
  cases hay <;> simp [containsSub, h]

lemma containsSub_cons (n : Str) (c : Char) (t : Str)
    (h : containsSub n t = true) : containsSub n (c :: t) = true := by
  simp [containsSub, h]

lemma containsSub_append_right (n x y : Str) :
    containsSub n (x ++ n ++ y) = true := by
  induction x with
  | nil =>
    exact containsSub_of_isPrefixOf _ _
      (List.isPrefixOf_iff_prefix.mpr (by simp))
  | cons c t ih => simpa [List.cons_append] using containsSub_cons n c _ ih

lemma dictInsert_append (k v : Str) (cfg : List (Str × Str))
    (h : ∀ kv ∈ cfg, kv.1 ≠ k) : dictInsert k v cfg = cfg ++ [(k, v)] := by
  induction cfg with
  | nil => rfl
  | cons kv0 t ih =>
    obtain ⟨k0, v0⟩ := kv0
    have hne : k0 ≠ k := h (k0, v0) (by simp)
    simp [dictInsert, hne, ih (fun kv hm => h kv (List.mem_cons_of_mem _ hm))]

lemma mem_dictInsert (kv : Str × Str) (k v : Str) (cfg : List (Str × Str))
    (h : kv ∈ dictInsert k v cfg) : kv = (k, v) ∨ kv ∈ cfg := by
  induction cfg with
  | nil => simpa [dictInsert] using h
  | cons kv0 t ih =>
    obtain ⟨k0, v0⟩ := kv0
    by_cases he : k0 = k
    · rw [dictInsert, if_pos he] at h
      rcases List.mem_cons.mp h with h1 | h2
      · exact Or.inl h1
      · exact Or.inr (List.mem_cons_of_mem _ h2)
    · rw [dictInsert, if_neg he] at h
      rcases List.mem_cons.mp h with h1 | h2
      · exact Or.inr (h1 ▸ List.mem_cons_self _ _)
      · rcases ih h2 with h3 | h4
        · exact Or.inl h3
        · exact Or.inr (List.mem_cons_of_mem _ h4)

lemma mem_keys_dictInsert (x k v : Str) (cfg : List (Str × Str))
    (h : x ∈ (dictInsert k v cfg).map Prod.fst) :
    x = k ∨ x ∈ cfg.map Prod.fst := by
  simp only [List.mem_map] at h
  obtain ⟨kv, hm, he⟩ := h
  rcases mem_dictInsert kv k v cfg hm with h1 | h2
  · left; rw [← he, h1]
  · right; exact List.mem_map.mpr ⟨kv, h2, he⟩

lemma keys_nodup_dictInsert (k v : Str) (cfg : List (Str × Str))
    (h : (cfg.map Prod.fst).Nodup) :
    ((dictInsert k v cfg).map Prod.fst).Nodup := by
  induction cfg with
  | nil => simp [dictInsert]
  | cons kv0 t ih =>
    obtain ⟨k0, v0⟩ := kv0
    simp only [List.map_cons, List.nodup_cons] at h
    by_cases he : k0 = k
    · rw [dictInsert, if_pos he]
      simp only [List.map_cons, List.nodup_cons]
      exact ⟨he ▸ h.1, h.2⟩
    · rw [dictInsert, if_neg he]
      simp only [List.map_cons, List.nodup_cons]
      refine ⟨fun hm => ?_, ih h.2⟩
      rcases mem_keys_dictInsert k0 k v t hm with h1 | h2
      · exact he h1
      · exact h.1 h2

lemma isPrefixOf_single_cons (c d : Char) (t : Str) :
    [c].isPrefixOf (d :: t) = (c == d) := by
  simp [List.isPrefixOf]

-- Configuration round-trip machinery.

/-- Well-formedness of one configuration entry as a serialised line: the
key and the value carry no surrounding whitespace and no newline, the key
contains no equals sign and does not open a comment. -/
def cfgPairOK (kv : Str × Str) : Prop :=
  pyStrip kv.1 = kv.1 ∧ pyStrip kv.2 = kv.2 ∧ '=' ∉ kv.1 ∧ '\n' ∉ kv.1 ∧
    '\n' ∉ kv.2 ∧ kv.1.head? ≠ some '#'

instance (kv : Str × Str) : Decidable (cfgPairOK kv) := by
  unfold cfgPairOK; infer_instance

/-- Serialised line of one configuration entry, as save_config writes it. -/
def cfgLine (kv : Str × Str) : Str := kv.1 ++ '=' :: kv.2

/-- File content holding one key=value line per entry, each line terminated:
the shape of a well-formed configuration file. -/
def cfgFile (ps : List (Str × Str)) : Str := joinNL (ps.map cfgLine) ++ ['\n']

lemma head_not_space_of_lstrip (c : Char) (t : Str)
    (h : lstrip (c :: t) = c :: t) : isPySpace c = false := by
  by_cases hp : isPySpace c = true
  · rw [lstrip_cons, if_pos hp] at h
    have hle := (lstrip_sublist t).length_le
    rw [h] at hle
    simp at hle
  · simpa using hp

lemma head?_of_front (l1 l2 : Str) (h : l1 <+: l2) (hne : l1 ≠ []) :
    l1.head? = l2.head? := by
  obtain ⟨t, rfl⟩ := h
  cases l1 with
  | nil => exact absurd rfl hne
  | cons c r => simp

lemma pyStrip_cfgLine (kv : Str × Str) (h : cfgPairOK kv) :
    pyStrip (cfgLine kv) = cfgLine kv := by
  obtain ⟨h1, h2, _, _, _, _⟩ := h
  apply pyStrip_eq_self
  · cases hk : kv.1 with
    | nil =>
      rw [cfgLine, hk, List.nil_append]
      exact lstrip_cons_neg _ _ (by decide)
    | cons c t =>
      have hc : isPySpace c = false :=
        head_not_space_of_lstrip c t (hk ▸ lstrip_eq_of_pyStrip _ h1)
      rw [cfgLine, hk, List.cons_append]
      exact lstrip_cons_neg _ _ hc
  · cases hv : kv.2 with
    | nil =>
      rw [cfgLine, hv]
      exact rstrip_append_single _ _ (by decide)
    | cons c t =>
      have hvr : rstrip kv.2 = kv.2 := rstrip_eq_of_pyStrip _ h2
      rw [cfgLine, show kv.1 ++ '=' :: kv.2 = (kv.1 ++ ['=']) ++ kv.2 from by
        simp]
      exact rstrip_append _ _ (by rw [hv]; simp) hvr

lemma loadConfigLine_wf (cfg : List (Str × Str)) (kv : Str × Str)
    (h : cfgPairOK kv) (hk : ∀ kv0 ∈ cfg, kv0.1 ≠ kv.1) :
    loadConfigLine cfg (cfgLine kv) = cfg ++ [kv] := by
  have hline : pyStrip (cfgLine kv) = cfgLine kv := pyStrip_cfgLine kv h
  obtain ⟨h1, h2, h3, _, _, h6⟩ := h
  have hempty : (cfgLine kv).isEmpty = false := by
    rw [cfgLine]; cases kv.1 <;> simp
  have hhash : (strL "#").isPrefixOf (cfgLine kv) = false := by
    rw [show strL "#" = ['#'] from rfl]
    cases hc : kv.1 with
    | nil => rw [cfgLine, hc, List.nil_append, isPrefixOf_single_cons]; decide
    | cons c t =>
      rw [cfgLine, hc, List.cons_append, isPrefixOf_single_cons]
      have : c ≠ '#' := by
        intro e
        exact h6 (by rw [hc, e]; rfl)
      exact beq_eq_false_iff_ne.mpr (fun e => this e.symm)
  have hsplit : splitFirst '=' (cfgLine kv) = some (kv.1, kv.2) :=
    splitFirst_eq kv.1 kv.2 h3
  rw [loadConfigLine]
  simp only [hline, hempty, hhash, hsplit, Bool.false_eq_true, if_false, h1, h2]
  exact dictInsert_append kv.1 kv.2 cfg hk

lemma load_config_lines (ps : List (Str × Str)) :
    ∀ cfg : List (Str × Str), (∀ kv ∈ ps, cfgPairOK kv) →
    (ps.map Prod.fst).Nodup →
    (∀ kv0 ∈ cfg, ∀ kv ∈ ps, kv0.1 ≠ kv.1) →
    List.foldl loadConfigLine cfg (ps.map cfgLine) = cfg ++ ps := by
  induction ps with
  | nil => intro cfg _ _ _; simp
  | cons kv t ih =>
    intro cfg hOK hnd hdisj
    have hstep : loadConfigLine cfg (cfgLine kv) = cfg ++ [kv] :=
      loadConfigLine_wf cfg kv (hOK kv (by simp))
        (fun kv0 hm => hdisj kv0 hm kv (by simp))
    have hnd2 : kv.1 ∉ t.map Prod.fst ∧ (t.map Prod.fst).Nodup := by
      rw [List.map_cons, List.nodup_cons] at hnd
      exact hnd
    simp only [List.map_cons, List.foldl_cons, hstep]
    rw [ih (cfg ++ [kv]) (fun x hx => hOK x (List.mem_cons_of_mem _ hx))
      hnd2.2 ?_]
    · simp
    · intro kv0 hm0 kv2 hm2
      rcases List.mem_append.mp hm0 with hc | hc
      · exact hdisj kv0 hc kv2 (List.mem_cons_of_mem _ hm2)
      · have : kv0 = kv := by simpa using hc
        subst this
        intro e
        exact hnd2.1 (List.mem_map.mpr ⟨kv2, hm2, e.symm⟩)

lemma loadConfigLine_nil (cfg : List (Str × Str)) :
    loadConfigLine cfg [] = cfg := rfl

lemma cfgLine_no_newline (kv : Str × Str) (h : cfgPairOK kv) :
    '\n' ∉ cfgLine kv := by
  obtain ⟨_, _, _, h4, h5, _⟩ := h
  intro hm
  rcases List.mem_append.mp hm with hc | hc
  · exact h4 hc
  · rcases List.mem_cons.mp hc with e | hc2
    · exact absurd e (by decide)
    · exact h5 hc2

lemma splitLines_cfgFile (ps : List (Str × Str)) (hne : ps ≠ [])
    (h : ∀ kv ∈ ps, cfgPairOK kv) :
    splitLines (cfgFile ps) = ps.map cfgLine ++ [[]] := by
  rw [cfgFile, show joinNL (ps.map cfgLine) ++ ['\n'] =
    joinNL (ps.map cfgLine) ++ '\n' :: [] from rfl, splitLines_append]
  rw [splitLines_joinNL (ps.map cfgLine) (by simpa using hne) ?_]
  · rfl
  · intro l hl
    obtain ⟨kv, hkv, he⟩ := List.mem_map.mp hl
    exact he ▸ cfgLine_no_newline kv (h kv hkv)

lemma load_cfgFile (ps : List (Str × Str)) (hne : ps ≠ [])
    (h : ∀ kv ∈ ps, cfgPairOK kv) (hnd : (ps.map Prod.fst).Nodup) :
    load_config_str (cfgFile ps) = ps := by
  rw [load_config_str, splitLines_cfgFile ps hne h, load_config,
    List.foldl_append, load_config_lines ps [] h hnd (by simp)]
  simp [loadConfigLine_nil]

lemma loadConfigLine_cases (cfg : List (Str × Str)) (raw : Str) :
    loadConfigLine cfg raw = cfg ∨
      ∃ a b, splitFirst '=' (pyStrip raw) = some (a, b) ∧
        (pyStrip raw).isEmpty = false ∧
        (strL "#").isPrefixOf (pyStrip raw) = false ∧
        loadConfigLine cfg raw = dictInsert (pyStrip a) (pyStrip b) cfg := by
  rw [loadConfigLine]
  by_cases he : (pyStrip raw).isEmpty
  · left; simp [he]
  · by_cases hh : (strL "#").isPrefixOf (pyStrip raw)
    · left; simp [he, hh]
    · cases hs : splitFirst '=' (pyStrip raw) with
      | none => left; simp [he, hh, hs]
      | some ab =>
        obtain ⟨a, b⟩ := ab
        right
        simp only [Bool.not_eq_true] at he hh
        exact ⟨a, b, rfl, he, hh, by simp [he, hh]⟩

lemma loaded_pair_ok (raw a b : Str) (hraw : '\n' ∉ raw)
    (hs : splitFirst '=' (pyStrip raw) = some (a, b))
    (hh : (strL "#").isPrefixOf (pyStrip raw) = false) :
    cfgPairOK (pyStrip a, pyStrip b) := by
  obtain ⟨hparts, hnoeq⟩ := splitFirst_parts '=' (pyStrip raw) a b hs
  have hsubraw : ∀ x, x ∈ pyStrip raw → x ∈ raw := fun x hx =>
    (pyStrip_sublist raw).subset hx
  have hsub_a : ∀ x, x ∈ a → x ∈ raw := fun x hx =>
    hsubraw x (hparts ▸ List.mem_append.mpr (Or.inl hx))
  have hsub_b : ∀ x, x ∈ b → x ∈ raw := fun x hx =>
    hsubraw x (hparts ▸ List.mem_append.mpr (Or.inr (List.mem_cons_of_mem _ hx)))
  refine ⟨pyStrip_idem a, pyStrip_idem b, ?_, ?_, ?_, ?_⟩
  · intro hx
    exact hnoeq ((pyStrip_sublist a).subset hx)
  · intro hx
    exact hraw (hsub_a _ ((pyStrip_sublist a).subset hx))
  · intro hx
    exact hraw (hsub_b _ ((pyStrip_sublist b).subset hx))
  · cases ha : pyStrip a with
    | nil => simp
    | cons c t =>
      cases ha0 : a with
      | nil =>
        rw [ha0, show pyStrip ([] : Str) = [] from rfl] at ha
        exact List.noConfusion ha
      | cons c0 t0 =>
        have hline : lstrip (pyStrip raw) = pyStrip raw :=
          lstrip_eq_of_pyStrip _ (pyStrip_idem raw)
        have hc0 : isPySpace c0 = false := by
          apply head_not_space_of_lstrip c0 (t0 ++ '=' :: b)
          rw [← List.cons_append, ← ha0, ← hparts]
          exact hline
        have hne : c0 ≠ '#' := by
          intro e
          rw [hparts, ha0, show strL "#" = ['#'] from rfl, List.cons_append,
            isPrefixOf_single_cons] at hh
          rw [e] at hh
          simp at hh
        have hstripa : pyStrip a = rstrip a := by
          rw [pyStrip, ha0, lstrip_cons_neg _ _ hc0]
        have hpre : (pyStrip a).head? = a.head? := by
          rw [hstripa]
          exact head?_of_front _ _ (rstrip_front a) (by rw [← hstripa, ha]; simp)
        rw [ha] at hpre
        rw [ha0] at hpre
        simp at hpre
        intro hcontra
        simp at hcontra
        rw [hcontra] at hpre
        exact hne hpre.symm

lemma load_fold_wf (ls : List Str) :
    ∀ cfg : List (Str × Str), (∀ l ∈ ls, '\n' ∉ l) →
    (∀ kv ∈ cfg, cfgPairOK kv) → (cfg.map Prod.fst).Nodup →
    (∀ kv ∈ List.foldl loadConfigLine cfg ls, cfgPairOK kv) ∧
      ((List.foldl loadConfigLine cfg ls).map Prod.fst).Nodup := by
  induction ls with
  | nil => intro cfg _ h hnd; exact ⟨h, hnd⟩
  | cons raw t ih =>
    intro cfg hls h hnd
    have hraw : '\n' ∉ raw := hls raw (by simp)
    have htail : ∀ l ∈ t, '\n' ∉ l := fun l hl => hls l (List.mem_cons_of_mem _ hl)
    rw [List.foldl_cons]
    rcases loadConfigLine_cases cfg raw with hc | ⟨a, b, hs, _, hh, he⟩
    · rw [hc]; exact ih cfg htail h hnd
    · rw [he]
      apply ih _ htail
      · intro kv hkv
        rcases mem_dictInsert kv _ _ cfg hkv with h1 | h2
        · exact h1 ▸ loaded_pair_ok raw a b hraw hs hh
        · exact h kv h2
      · exact keys_nodup_dictInsert _ _ cfg hnd

lemma load_config_wf (ls : List Str) (hls : ∀ l ∈ ls, '\n' ∉ l) :
    (∀ kv ∈ load_config ls, cfgPairOK kv) ∧
      ((load_config ls).map Prod.fst).Nodup :=
  load_fold_wf ls [] hls (by simp) (by simp)

lemma save_eq_cfgFile (cfg : List (Str × Str)) : save_config cfg = cfgFile cfg := rfl

lemma load_save (cfg : List (Str × Str)) (h : ∀ kv ∈ cfg, cfgPairOK kv)
    (hnd : (cfg.map Prod.fst).Nodup) :
    load_config_str (save_config cfg) = cfg := by
  cases cfg with
  | nil => decide
  | cons kv t =>
    rw [save_eq_cfgFile]
    exact load_cfgFile _ (by simp) h hnd

-- Claim C2.

/-- C2 (counterexample): the empty file satisfies every stated side
condition of the round-trip claim vacuously (one key=value per line, no
comments, no blank lines, no surrounding whitespace, distinct keys), yet
loading it yields the empty mapping and saving that writes a single bare
newline, so save(load(f)) differs from f. -/
theorem C2_counterexample :
    load_config_str [] = [] ∧ save_config [] = ['\n'] ∧
      save_config (load_config_str []) ≠ ([] : Str) := by
  decide

/-- C2 (amended): for every nonempty well-formed configuration file, made
of one newline-terminated key=value line per entry, with no comment lines,
no blank lines, no surrounding whitespace around keys or values, no equals
sign inside a key and pairwise distinct keys, saving the result of loading
the file reproduces it exactly: same keys, same values, same order. -/
theorem C2_roundtrip (ps : List (Str × Str)) (hne : ps ≠ [])
    (h : ∀ kv ∈ ps, cfgPairOK kv) (hnd : (ps.map Prod.fst).Nodup) :
    save_config (load_config_str (cfgFile ps)) = cfgFile ps := by
  rw [load_cfgFile ps hne h hnd]
  rfl

/-- C2 (witness): the round trip on the concrete two-entry file
STREAM_MODE=MJPEG, HTTP_PORT=8080. -/
theorem C2_witness :
    ([(strL "STREAM_MODE", strL "MJPEG"), (strL "HTTP_PORT", strL "8080")] ≠
        ([] : List (Str × Str))) ∧
      save_config (load_config_str (cfgFile
        [(strL "STREAM_MODE", strL "MJPEG"), (strL "HTTP_PORT", strL "8080")])) =
        cfgFile [(strL "STREAM_MODE", strL "MJPEG"), (strL "HTTP_PORT", strL "8080")] :=
  ⟨by decide, C2_roundtrip _ (by decide) (by decide) (by decide)⟩

-- Claim C9.

/-- C9: a POST api_config request whose body is malformed is treated as an
empty update: the handler answers ok (HTTP 200), the returned configuration
mapping is exactly the one loaded from the file, and the mapping stored in
the rewritten file still loads back unchanged, with no key added, removed
or modified; the malformed input is never raised to the caller. -/
theorem C9_malformed_noop (content : Str) :
    (api_config_post (splitLines content) none).httpStatus = 200 ∧
    (api_config_post (splitLines content) none).status = strL "ok" ∧
    (api_config_post (splitLines content) none).cfg = load_config_str content ∧
    load_config_str ((api_config_post (splitLines content) none).file) =
      load_config_str content := by
  have hwf := load_config_wf (splitLines content) (mem_splitLines_no_newline content)
  exact ⟨rfl, rfl, rfl, load_save _ hwf.1 hwf.2⟩

-- Claim C4.

/-- C4: a POST api_wifi request whose ssid field is missing, empty, or
whitespace-only (empty after trimming) is answered with HTTP 400 and the
validation error SSID is required, and the credentials file is left
completely unchanged, whatever the other body fields, the passphrase tool
outcome and the write outcome would have been. -/
theorem C4_empty_ssid (file : Str) (ssidIn pskIn : Option Str)
    (hiddenIn : Str ⊕ Bool) (wpaOut writeErr : Option Str)
    (h : pyStrip (ssidIn.getD []) = []) :
    api_wifi_post file ssidIn pskIn hiddenIn wpaOut writeErr =
      ⟨400, strL "error", some (strL "SSID is required"), none, file⟩ := by
  rw [api_wifi_post]
  simp [h]

/-- C4 (witness): a whitespace-only ssid against a concrete file is
rejected with 400 and the file field of the response is the input file. -/
theorem C4_witness :
    pyStrip ((some (strL "  ")).getD []) = [] ∧
      api_wifi_post (strL "x=y") (some (strL "  ")) (some (strL "pw"))
        (Sum.inr true) none none =
        ⟨400, strL "error", some (strL "SSID is required"), none, strL "x=y"⟩ :=
  ⟨by decide, C4_empty_ssid _ _ _ _ _ _ (by decide)⟩

-- Wi-Fi block machinery: helpers.

lemma not_mem_of_contains_false (l : Str) (c : Char) (h : l.contains c = false) :
    c ∉ l := by
  intro hm
  rw [List.contains_eq_any_beq] at h
  simp at h
  exact h c hm rfl

lemma isPrefixOf_cons_ne (c1 c2 : Char) (t1 t2 : Str) (h : (c1 == c2) = false) :
    (c1 :: t1).isPrefixOf (c2 :: t2) = false := by
  simp [List.isPrefixOf, h]

lemma lstrip_append_space (pad s : Str) (h : ∀ c ∈ pad, isPySpace c = true) :
    lstrip (pad ++ s) = lstrip s := by
  induction pad with
  | nil => simp
  | cons c t ih =>
    rw [List.cons_append, lstrip_cons, if_pos (h c (by simp))]
    exact ih (fun x hx => h x (List.mem_cons_of_mem _ hx))

lemma pyStrip_pad (pad core : Str) (hpad : ∀ c ∈ pad, isPySpace c = true)
    (hl : lstrip core = core) (hr : rstrip core = core) :
    pyStrip (pad ++ core) = core := by
  rw [pyStrip, lstrip_append_space _ _ hpad, hl, hr]

lemma dropWhile_cons_neg (p : Char → Bool) (c : Char) (t : Str)
    (h : p c = false) : List.dropWhile p (c :: t) = c :: t := by
  simp [List.dropWhile_cons, h]

lemma stripChar_quote (S : Str) (h1 : S ≠ []) (h2 : '"' ∉ S) :
    stripChar '"' ('"' :: (S ++ ['"'])) = S := by
  rw [stripChar]
  have hd : List.dropWhile (fun x => decide (x = '"')) ('"' :: (S ++ ['"'])) =
      S ++ ['"'] := by
    rw [List.dropWhile_cons]
    simp only [decide_eq_true_eq, if_pos rfl, if_true]
    cases hS : S with
    | nil => exact absurd hS h1
    | cons a t =>
      have ha : decide (a = '"') = false := by
        simp only [decide_eq_false_iff_not]
        intro e
        exact h2 (by rw [hS, e]; exact List.mem_cons_self _ _)
      rw [List.cons_append]
      exact dropWhile_cons_neg _ a _ ha
  rw [show ((· = '"') : Char → Bool) = fun x => decide (x = '"') from rfl, hd]
  rw [List.reverse_append, show (['"'] : Str).reverse = ['"'] from rfl,
    List.singleton_append]
  rw [List.dropWhile_cons]
  simp only [decide_eq_true_eq, if_pos rfl, if_true]
  cases hr : S.reverse with
  | nil => exact absurd (by simpa using congrArg List.reverse hr) h1
  | cons d r =>
    have hdne : decide (d = '"') = false := by
      simp only [decide_eq_false_iff_not]
      intro e
      apply h2
      rw [← List.mem_reverse, hr, e]
      exact List.mem_cons_self _ _
    rw [dropWhile_cons_neg _ d _ hdne, ← hr, List.reverse_reverse]

lemma reqOKb_parts (r : AddReq) (h : reqOKb r = true) :
    r.ssid ≠ [] ∧ pyStrip r.ssid = r.ssid ∧ '"' ∉ r.ssid ∧ '\n' ∉ r.ssid ∧
      (∀ p, r.psk = some p → '\n' ∉ p) ∧
      (∀ hs, r.toolHash = some hs → pyStrip hs = hs ∧ '\n' ∉ hs) := by
  rw [reqOKb] at h
  simp only [Bool.and_eq_true] at h
  obtain ⟨⟨⟨⟨⟨h1, h2⟩, h3⟩, h4⟩, h5⟩, h6⟩ := h
  refine ⟨?_, ?_, ?_, ?_, ?_, ?_⟩
  · intro e
    rw [e] at h1
    simp at h1
  · exact eq_of_beq h2
  · exact not_mem_of_contains_false _ _ (by simpa using h3)
  · exact not_mem_of_contains_false _ _ (by simpa using h4)
  · intro p hp
    rw [hp] at h5
    exact not_mem_of_contains_false _ _ (by simpa using h5)
  · intro hs hhs
    rw [hhs] at h6
    simp only [Bool.and_eq_true] at h6
    exact ⟨eq_of_beq h6.1, not_mem_of_contains_false _ _ (by simpa using h6.2)⟩

-- listStep evaluation on the line shapes occurring in generated blocks.

lemma listStep_open (st : ListState) (raw : Str)
    (h : (strL "network=\x7b").isPrefixOf (pyStrip raw) = true) :
    listStep st raw = (some initBlock, st.2) := by
  simp only [listStep, h, if_true]

lemma listStep_close (b : BlockAcc) (acc : List WifiNetwork) (raw : Str)
    (h : pyStrip raw = strL "\x7d") :
    listStep (some b, acc) raw =
      (none, match closeBlock b with
        | some w => acc ++ [w]
        | none => acc) := by
  have hno : (strL "network=\x7b").isPrefixOf (strL "\x7d") = false := by decide
  simp only [listStep, h, hno, Bool.false_eq_true, if_false, eq_self_iff_true,
    if_true]

lemma listStep_empty (st : ListState) (raw : Str) (h : pyStrip raw = []) :
    listStep st raw = st := by
  obtain ⟨blk, acc⟩ := st
  have hop : (strL "network=\x7b").isPrefixOf ([] : Str) = false := by decide
  cases blk with
  | none => simp only [listStep, h, hop, Bool.false_eq_true, if_false]
  | some b =>
    have hcl : (([] : Str) = strL "\x7d") = False :=
      eq_false (show ([] : Str) ≠ strL "\x7d" by decide)
    simp only [listStep, h, hop, Bool.false_eq_true, if_false, hcl,
      List.isEmpty_nil, Bool.true_or, if_true]

lemma listStep_kv (b : BlockAcc) (acc : List WifiNetwork) (raw k v : Str)
    (hstrip : pyStrip raw = k ++ '=' :: v)
    (hopen : (strL "network=\x7b").isPrefixOf (k ++ '=' :: v) = false)
    (hclose : k ++ '=' :: v ≠ strL "\x7d")
    (hhash : (strL "#").isPrefixOf (k ++ '=' :: v) = false)
    (hkeq : '=' ∉ k) :
    listStep (some b, acc) raw =
      (some (applyKey b (pyStrip k) (stripChar '"' (pyStrip v))), acc) := by
  have hne : (k ++ '=' :: v).isEmpty = false := by cases k <;> simp
  have hsf : splitFirst '=' (k ++ '=' :: v) = some (k, v) := splitFirst_eq k v hkeq
  simp only [listStep, hstrip, hopen, Bool.false_eq_true, if_false,
    eq_false hclose, hne, hhash, Bool.or_self, hsf]

lemma applyKey_ssid (b : BlockAcc) (S : Str) :
    applyKey b (strL "ssid") S = { b with ssid := some S } := by
  rw [applyKey, if_pos rfl]

lemma applyKey_scan1 (b : BlockAcc) :
    applyKey b (strL "scan_ssid") (strL "1") = { b with hidden := true } := by
  rw [applyKey, if_neg (show ¬ strL "scan_ssid" = strL "ssid" by decide),
    if_pos rfl, show decide (strL "1" = strL "1") = true from by decide]

lemma applyKey_keymgmt_none (b : BlockAcc) :
    applyKey b (strL "key_mgmt") (strL "NONE") =
      { b with security := strL "open" } := by
  rw [applyKey, if_neg (show ¬ strL "key_mgmt" = strL "ssid" by decide),
    if_neg (show ¬ strL "key_mgmt" = strL "scan_ssid" by decide),
    if_pos rfl, if_pos rfl]

lemma applyKey_psk (b : BlockAcc) (v : Str) :
    applyKey b (strL "psk") v = b := by
  rw [applyKey, if_neg (show ¬ strL "psk" = strL "ssid" by decide),
    if_neg (show ¬ strL "psk" = strL "scan_ssid" by decide),
    if_neg (show ¬ strL "psk" = strL "key_mgmt" by decide),
    if_neg (show ¬ strL "psk" = strL "priority" by decide),
    if_neg (show ¬ strL "psk" = strL "disabled" by decide)]

lemma pyStrip_pad_sandwich (pad a mid : Str) (b : Char)
    (hpad : ∀ c ∈ pad, isPySpace c = true)
    (ha : ∃ c t, a = c :: t ∧ isPySpace c = false)
    (hb : isPySpace b = false) :
    pyStrip (pad ++ (a ++ mid ++ [b])) = a ++ mid ++ [b] := by
  apply pyStrip_pad _ _ hpad
  · obtain ⟨c, t, he, hc⟩ := ha
    rw [he, List.cons_append, List.cons_append]
    exact lstrip_cons_neg _ _ hc
  · exact rstrip_append_single _ _ hb

lemma pyStrip_psk_line (pad H : Str) (hpad : ∀ c ∈ pad, isPySpace c = true)
    (hH : pyStrip H = H) :
    pyStrip (pad ++ (strL "psk=" ++ H)) = strL "psk=" ++ H := by
  apply pyStrip_pad _ _ hpad
  · rw [show strL "psk=" ++ H = 'p' :: (strL "sk=" ++ H) from rfl]
    exact lstrip_cons_neg _ _ (by decide)
  · cases hc : H with
    | nil =>
      rw [List.append_nil,
        show (strL "psk=" : Str) = strL "psk" ++ ['='] from rfl]
      exact rstrip_append_single _ _ (by decide)
    | cons c t =>
      have hH2 : pyStrip (c :: t) = c :: t := hc ▸ hH
      exact rstrip_append _ _ (by simp) (rstrip_eq_of_pyStrip _ hH2)

lemma no_newline_sandwich (a mid : Str) (b : Char) (hna : '\n' ∉ a)
    (hnm : '\n' ∉ mid) (hnb : b ≠ '\n') : '\n' ∉ a ++ mid ++ [b] := by
  intro hm
  rcases List.mem_append.mp hm with hc | hc
  · rcases List.mem_append.mp hc with hc2 | hc2
    · exact hna hc2
    · exact hnm hc2
  · have he : '\n' = b := by simpa using hc
    exact hnb he.symm

lemma wpaKeptLines_canonical (S P H : Str)
    (hS : '\n' ∉ S) (hP : '\n' ∉ P) (hH1 : pyStrip H = H) (hH2 : '\n' ∉ H) :
    wpaKeptLines (wpaPassphraseOut S P H) =
      [strL "ssid=\"" ++ S ++ ['"'], strL "psk=" ++ H, strL "\x7d"] := by
  have hnl : ∀ l ∈ [strL "network=\x7b", strL "\tssid=\"" ++ S ++ ['"'],
      strL "\t#psk=\"" ++ P ++ ['"'], strL "\tpsk=" ++ H, strL "\x7d",
      ([] : Str)], '\n' ∉ l := by
    intro l hl
    simp only [List.mem_cons, List.not_mem_nil, or_false] at hl
    rcases hl with rfl | rfl | rfl | rfl | rfl | rfl
    · decide
    · rw [show strL "\tssid=\"" ++ S ++ ['"'] =
        '\t' :: (strL "ssid=\"" ++ S ++ ['"']) from rfl]
      intro hm
      rcases List.mem_cons.mp hm with e | hm2
      · exact absurd e (by decide)
      · exact no_newline_sandwich _ _ _ (by decide) hS (by decide) hm2
    · rw [show strL "\t#psk=\"" ++ P ++ ['"'] =
        '\t' :: (strL "#psk=\"" ++ P ++ ['"']) from rfl]
      intro hm
      rcases List.mem_cons.mp hm with e | hm2
      · exact absurd e (by decide)
      · exact no_newline_sandwich _ _ _ (by decide) hP (by decide) hm2
    · rw [show strL "\tpsk=" ++ H = '\t' :: (strL "psk=" ++ H) from rfl]
      intro hm
      rcases List.mem_cons.mp hm with e | hm2
      · exact absurd e (by decide)
      · rcases List.mem_append.mp hm2 with hc | hc
        · exact absurd hc (by decide)
        · exact hH2 hc
    · decide
    · simp
  rw [wpaKeptLines, wpaPassphraseOut, splitLines_joinNL _ (by simp) hnl]
  have hs1 : pyStrip (strL "\tssid=\"" ++ S ++ ['"']) =
      strL "ssid=\"" ++ S ++ ['"'] := by
    rw [show strL "\tssid=\"" ++ S ++ ['"'] =
      ['\t'] ++ (strL "ssid=\"" ++ S ++ ['"']) from rfl]
    exact pyStrip_pad_sandwich _ _ _ _ (by decide)
      ⟨'s', strL "sid=\"", rfl, by decide⟩ (by decide)
  have hs2 : pyStrip (strL "\t#psk=\"" ++ P ++ ['"']) =
      strL "#psk=\"" ++ P ++ ['"'] := by
    rw [show strL "\t#psk=\"" ++ P ++ ['"'] =
      ['\t'] ++ (strL "#psk=\"" ++ P ++ ['"']) from rfl]
    exact pyStrip_pad_sandwich _ _ _ _ (by decide)
      ⟨'#', strL "psk=\"", rfl, by decide⟩ (by decide)
  have hs3 : pyStrip (strL "\tpsk=" ++ H) = strL "psk=" ++ H := by
    rw [show strL "\tpsk=" ++ H = ['\t'] ++ (strL "psk=" ++ H) from rfl]
    exact pyStrip_psk_line _ _ (by decide) hH1
  have c2 : ((strL "ssid=\"" ++ S ++ ['"']).isEmpty ||
      (strL "#").isPrefixOf (strL "ssid=\"" ++ S ++ ['"']) ||
      (strL "network=").isPrefixOf (strL "ssid=\"" ++ S ++ ['"'])) = false := by
    rw [show strL "ssid=\"" ++ S ++ ['"'] =
      's' :: (strL "sid=\"" ++ S ++ ['"']) from rfl,
      show (strL "#" : Str) = ['#'] from rfl, isPrefixOf_single_cons,
      show (strL "network=" : Str) = 'n' :: strL "etwork=" from rfl,
      isPrefixOf_cons_ne _ _ _ _ (by decide)]
    simp
  have c3 : ((strL "#psk=\"" ++ P ++ ['"']).isEmpty ||
      (strL "#").isPrefixOf (strL "#psk=\"" ++ P ++ ['"']) ||
      (strL "network=").isPrefixOf (strL "#psk=\"" ++ P ++ ['"'])) = true := by
    rw [show strL "#psk=\"" ++ P ++ ['"'] =
      '#' :: (strL "psk=\"" ++ P ++ ['"']) from rfl,
      show (strL "#" : Str) = ['#'] from rfl, isPrefixOf_single_cons]
    simp
  have c4 : ((strL "psk=" ++ H).isEmpty ||
      (strL "#").isPrefixOf (strL "psk=" ++ H) ||
      (strL "network=").isPrefixOf (strL "psk=" ++ H)) = false := by
    rw [show strL "psk=" ++ H = 'p' :: (strL "sk=" ++ H) from rfl,
      show (strL "#" : Str) = ['#'] from rfl, isPrefixOf_single_cons,
      show (strL "network=" : Str) = 'n' :: strL "etwork=" from rfl,
      isPrefixOf_cons_ne _ _ _ _ (by decide)]
    simp
  simp only [List.filterMap_cons, List.filterMap_nil, hs1, hs2, hs3,
    show pyStrip (strL "network=\x7b") = strL "network=\x7b" from by decide,
    show pyStrip (strL "\x7d") = strL "\x7d" from by decide,
    show pyStrip ([] : Str) = [] from rfl, c2, c3, c4,
    show ((strL "network=\x7b" : Str).isEmpty ||
      (strL "#").isPrefixOf (strL "network=\x7b") ||
      (strL "network=").isPrefixOf (strL "network=\x7b")) = true from by decide,
    show ((strL "\x7d" : Str).isEmpty ||
      (strL "#").isPrefixOf (strL "\x7d") ||
      (strL "network=").isPrefixOf (strL "\x7d")) = false from by decide,
    show (([] : Str).isEmpty || (strL "#").isPrefixOf ([] : Str) ||
      (strL "network=").isPrefixOf ([] : Str)) = true from by decide,
    Bool.false_eq_true, if_true, if_false]

lemma pyStrip_quoted_val (S : Str) :
    pyStrip ('"' :: (S ++ ['"'])) = '"' :: (S ++ ['"']) := by
  apply pyStrip_eq_self
  · exact lstrip_cons_neg _ _ (by decide)
  · rw [show '"' :: (S ++ ['"']) = ('"' :: S) ++ ['"'] from rfl]
    exact rstrip_append_single _ _ (by decide)

lemma listStep_ssid_line (b : BlockAcc) (acc : List WifiNetwork) (S : Str)
    (h1 : S ≠ []) (h2 : '"' ∉ S) :
    listStep (some b, acc) (strL "    ssid=\"" ++ S ++ ['"']) =
      (some { b with ssid := some S }, acc) := by
  have hstrip : pyStrip (strL "    ssid=\"" ++ S ++ ['"']) =
      strL "ssid" ++ '=' :: ('"' :: (S ++ ['"'])) := by
    have hx := pyStrip_pad_sandwich (strL "    ") (strL "ssid=\"") S '"'
      (by decide) ⟨'s', strL "sid=\"", rfl, by decide⟩ (by decide)
    rw [show strL "    " ++ (strL "ssid=\"" ++ S ++ ['"']) =
      strL "    ssid=\"" ++ S ++ ['"'] from rfl] at hx
    rw [hx]
    rfl
  have hopen : (strL "network=\x7b").isPrefixOf
      (strL "ssid" ++ '=' :: ('"' :: (S ++ ['"']))) = false := by
    rw [show strL "ssid" ++ '=' :: ('"' :: (S ++ ['"'])) =
      's' :: (strL "sid" ++ '=' :: ('"' :: (S ++ ['"']))) from rfl,
      show (strL "network=\x7b" : Str) = 'n' :: strL "etwork=\x7b" from rfl]
    exact isPrefixOf_cons_ne _ _ _ _ (by decide)
  have hclose : strL "ssid" ++ '=' :: ('"' :: (S ++ ['"'])) ≠ strL "\x7d" := by
    intro e
    rw [show strL "ssid" ++ '=' :: ('"' :: (S ++ ['"'])) =
      's' :: (strL "sid" ++ '=' :: ('"' :: (S ++ ['"']))) from rfl,
      show (strL "\x7d" : Str) = '\x7d' :: [] from rfl] at e
    injection e with e1 _
    exact absurd e1 (by decide)
  have hhash : (strL "#").isPrefixOf
      (strL "ssid" ++ '=' :: ('"' :: (S ++ ['"']))) = false := by
    rw [show strL "ssid" ++ '=' :: ('"' :: (S ++ ['"'])) =
      's' :: (strL "sid" ++ '=' :: ('"' :: (S ++ ['"']))) from rfl,
      show (strL "#" : Str) = ['#'] from rfl, isPrefixOf_single_cons]
    decide
  rw [listStep_kv b acc _ (strL "ssid") ('"' :: (S ++ ['"']))
    hstrip hopen hclose hhash (by decide),
    show pyStrip (strL "ssid") = strL "ssid" from by decide,
    pyStrip_quoted_val, stripChar_quote S h1 h2, applyKey_ssid]

lemma listStep_tool_psk_line (b : BlockAcc) (acc : List WifiNetwork)
    (hsh : Str) (hh : pyStrip hsh = hsh) :
    listStep (some b, acc) (strL "    " ++ (strL "psk=" ++ hsh)) =
      (some b, acc) := by
  have hstrip : pyStrip (strL "    " ++ (strL "psk=" ++ hsh)) =
      strL "psk" ++ '=' :: hsh := by
    rw [pyStrip_psk_line _ _ (by decide) hh]
    rfl
  have hopen : (strL "network=\x7b").isPrefixOf (strL "psk" ++ '=' :: hsh) =
      false := by
    rw [show strL "psk" ++ '=' :: hsh = 'p' :: (strL "sk" ++ '=' :: hsh) from rfl,
      show (strL "network=\x7b" : Str) = 'n' :: strL "etwork=\x7b" from rfl]
    exact isPrefixOf_cons_ne _ _ _ _ (by decide)
  have hclose : strL "psk" ++ '=' :: hsh ≠ strL "\x7d" := by
    intro e
    rw [show strL "psk" ++ '=' :: hsh = 'p' :: (strL "sk" ++ '=' :: hsh) from rfl,
      show (strL "\x7d" : Str) = '\x7d' :: [] from rfl] at e
    injection e with e1 _
    exact absurd e1 (by decide)
  have hhash : (strL "#").isPrefixOf (strL "psk" ++ '=' :: hsh) = false := by
    rw [show strL "psk" ++ '=' :: hsh = 'p' :: (strL "sk" ++ '=' :: hsh) from rfl,
      show (strL "#" : Str) = ['#'] from rfl, isPrefixOf_single_cons]
    decide
  rw [listStep_kv b acc _ (strL "psk") hsh hstrip hopen hclose hhash (by decide),
    show pyStrip (strL "psk") = strL "psk" from by decide, applyKey_psk]

lemma listStep_fallback_psk_line (b : BlockAcc) (acc : List WifiNetwork)
    (p : Str) :
    listStep (some b, acc) (strL "    psk=\"" ++ p ++ ['"']) =
      (some b, acc) := by
  have hstrip : pyStrip (strL "    psk=\"" ++ p ++ ['"']) =
      strL "psk" ++ '=' :: ('"' :: (p ++ ['"'])) := by
    have hx := pyStrip_pad_sandwich (strL "    ") (strL "psk=\"") p '"'
      (by decide) ⟨'p', strL "sk=\"", rfl, by decide⟩ (by decide)
    rw [show strL "    " ++ (strL "psk=\"" ++ p ++ ['"']) =
      strL "    psk=\"" ++ p ++ ['"'] from rfl] at hx
    rw [hx]
    rfl
  have hopen : (strL "network=\x7b").isPrefixOf
      (strL "psk" ++ '=' :: ('"' :: (p ++ ['"']))) = false := by
    rw [show strL "psk" ++ '=' :: ('"' :: (p ++ ['"'])) =
      'p' :: (strL "sk" ++ '=' :: ('"' :: (p ++ ['"']))) from rfl,
      show (strL "network=\x7b" : Str) = 'n' :: strL "etwork=\x7b" from rfl]
    exact isPrefixOf_cons_ne _ _ _ _ (by decide)
  have hclose : strL "psk" ++ '=' :: ('"' :: (p ++ ['"'])) ≠ strL "\x7d" := by
    intro e
    rw [show strL "psk" ++ '=' :: ('"' :: (p ++ ['"'])) =
      'p' :: (strL "sk" ++ '=' :: ('"' :: (p ++ ['"']))) from rfl,
      show (strL "\x7d" : Str) = '\x7d' :: [] from rfl] at e
    injection e with e1 _
    exact absurd e1 (by decide)
  have hhash : (strL "#").isPrefixOf
      (strL "psk" ++ '=' :: ('"' :: (p ++ ['"']))) = false := by
    rw [show strL "psk" ++ '=' :: ('"' :: (p ++ ['"'])) =
      'p' :: (strL "sk" ++ '=' :: ('"' :: (p ++ ['"']))) from rfl,
      show (strL "#" : Str) = ['#'] from rfl, isPrefixOf_single_cons]
    decide
  rw [listStep_kv b acc _ (strL "psk") ('"' :: (p ++ ['"']))
    hstrip hopen hclose hhash (by decide),
    show pyStrip (strL "psk") = strL "psk" from by decide, applyKey_psk]

lemma listStep_scan_line (b : BlockAcc) (acc : List WifiNetwork) :
    listStep (some b, acc) (strL "    scan_ssid=1") =
      (some { b with hidden := true }, acc) := by
  rw [listStep_kv b acc _ (strL "scan_ssid") (strL "1") (by decide) (by decide)
    (by decide) (by decide) (by decide),
    show pyStrip (strL "scan_ssid") = strL "scan_ssid" from by decide,
    show stripChar '"' (pyStrip (strL "1")) = strL "1" from by decide,
    applyKey_scan1]

lemma listStep_keymgmt_line (b : BlockAcc) (acc : List WifiNetwork) :
    listStep (some b, acc) (strL "    key_mgmt=NONE") =
      (some { b with security := strL "open" }, acc) := by
  rw [listStep_kv b acc _ (strL "key_mgmt") (strL "NONE") (by decide) (by decide)
    (by decide) (by decide) (by decide),
    show pyStrip (strL "key_mgmt") = strL "key_mgmt" from by decide,
    show stripChar '"' (pyStrip (strL "NONE")) = strL "NONE" from by decide,
    applyKey_keymgmt_none]

lemma listStep_outside_skip (acc : List WifiNetwork) (raw : Str)
    (h : (strL "network=\x7b").isPrefixOf (pyStrip raw) = false) :
    listStep (none, acc) raw = (none, acc) := by
  simp only [listStep, h, Bool.false_eq_true, if_false]

lemma genBlockLines_eq (S : Str) (psk : Option Str) (hidden : Bool)
    (wpaOut : Option Str) :
    genBlockLines S psk hidden wpaOut =
      [strL "network=\x7b", strL "    ssid=\"" ++ S ++ ['\"']] ++
      (if hidden then [strL "    scan_ssid=1"] else []) ++
      (if pskTruthy psk then
        (match wpaOut with
         | some out => wpaKeptLines out
         | none => [strL "psk=\"" ++ psk.getD [] ++ ['\"']]).map
           (fun l => strL "    " ++ l)
       else [strL "    key_mgmt=NONE"]) ++ [strL "\x7d"] := by
  rw [genBlockLines.eq_def]
  cases hidden <;> cases hps : pskTruthy psk <;> simp [hps]

lemma reqPskValue_some (r : AddReq) (p : Str) (h : reqPskValue r = some p) :
    p.isEmpty = false ∧ pskTruthy (some p) = true := by
  have hne : p.isEmpty = false := by
    rw [reqPskValue.eq_def] at h
    cases hp : r.psk.map pyStrip with
    | none => rw [hp] at h; exact absurd h (by simp)
    | some q =>
      rw [hp] at h
      rw [show (match some q with
          | none => none
          | some p => if p.isEmpty = true then none else some p : Option Str) =
          (if q.isEmpty = true then none else some q) from rfl] at h
      by_cases hq : q.isEmpty
      · rw [if_pos hq] at h
        exact absurd h (by simp)
      · rw [if_neg hq] at h
        have hqp : q = p := by simpa using h
        subst hqp
        simpa using hq
  refine ⟨hne, ?_⟩
  rw [show pskTruthy (some p) = !p.isEmpty from rfl, hne]
  rfl

lemma reqPskValue_from (r : AddReq) (p : Str) (h : reqPskValue r = some p) :
    ∃ p0, r.psk = some p0 ∧ p = pyStrip p0 := by
  rw [reqPskValue.eq_def] at h
  cases hp : r.psk with
  | none => rw [hp] at h; exact absurd h (by simp)
  | some p0 =>
    rw [hp] at h
    rw [show (match (some p0).map pyStrip with
        | none => none
        | some p => if p.isEmpty = true then none else some p : Option Str) =
        (if (pyStrip p0).isEmpty = true then none
         else some (pyStrip p0)) from rfl] at h
    by_cases hq : (pyStrip p0).isEmpty
    · rw [if_pos hq] at h
      exact absurd h (by simp)
    · rw [if_neg hq] at h
      exact ⟨p0, rfl, by simpa using h.symm⟩

lemma foldl_genBlock (r : AddReq) (hOK : reqOKb r = true) (st : ListState) :
    List.foldl listStep st
      (genBlockLines r.ssid (reqPskValue r) r.hidden (reqWpaOut r) ++ [[]]) =
      (none, st.2 ++ [expectedRecord r]) := by
  obtain ⟨hs1, hs2, hs3, hs4, hpskn, htoolc⟩ := reqOKb_parts r hOK
  have hopen : (strL "network=\x7b").isPrefixOf
      (pyStrip (strL "network=\x7b")) = true := by decide
  have hbrace : pyStrip (strL "\x7d") = strL "\x7d" := by decide
  have hbrace2 : pyStrip (strL "    \x7d") = strL "\x7d" := by decide
  rcases hpv : reqPskValue r with _ | p
  · have hexp : expectedRecord r = ⟨r.ssid, r.hidden, strL "open", none, none⟩ := by
      rw [expectedRecord, hpv]
      rfl
    rw [genBlockLines_eq, show pskTruthy none = false from rfl, hexp]
    cases hh : r.hidden
    · simp only [Bool.false_eq_true, if_false, if_true, List.append_nil,
          List.nil_append, List.cons_append, List.singleton_append]
      rw [List.foldl_cons, listStep_open st _ hopen,
        List.foldl_cons, listStep_ssid_line _ _ _ hs1 hs3,
        List.foldl_cons, listStep_keymgmt_line,
        List.foldl_cons, listStep_close _ _ _ hbrace,
        List.foldl_cons, listStep_empty _ [] rfl, List.foldl_nil]
      simp [closeBlock, initBlock]
    · simp only [Bool.false_eq_true, if_false, if_true, List.append_nil,
          List.nil_append, List.cons_append, List.singleton_append]
      rw [List.foldl_cons, listStep_open st _ hopen,
        List.foldl_cons, listStep_ssid_line _ _ _ hs1 hs3,
        List.foldl_cons, listStep_scan_line,
        List.foldl_cons, listStep_keymgmt_line,
        List.foldl_cons, listStep_close _ _ _ hbrace,
        List.foldl_cons, listStep_empty _ [] rfl, List.foldl_nil]
      simp [closeBlock, initBlock]
  · have hexp : expectedRecord r = ⟨r.ssid, r.hidden, strL "unknown", none, none⟩ := by
      rw [expectedRecord, hpv]
      rfl
    obtain ⟨p0, hp0, hpp0⟩ := reqPskValue_from r p hpv
    have hp_nl : '\n' ∉ p := fun hm =>
      hpskn p0 hp0 ((pyStrip_sublist p0).subset (hpp0 ▸ hm))
    have htr := (reqPskValue_some r p hpv).2
    rcases htool : r.toolHash with _ | hsh
    · have hw : reqWpaOut r = none := by rw [reqWpaOut, htool]; rfl
      rw [genBlockLines_eq, hw, htr, hexp]
      rw [show ((match (none : Option Str) with
          | some out => wpaKeptLines out
          | none => [strL "psk=\"" ++ (some p).getD [] ++ ['"']]) : List Str) =
          [strL "psk=\"" ++ p ++ ['"']] from rfl]
      rw [show (List.map (fun l => strL "    " ++ l) [strL "psk=\"" ++ p ++ ['"']]) =
          [strL "    psk=\"" ++ p ++ ['"']] from by
        simp only [List.map_cons, List.map_nil]
        rfl]
      cases hh : r.hidden
      · simp only [Bool.false_eq_true, if_false, if_true, List.append_nil,
          List.nil_append, List.cons_append, List.singleton_append]
        rw [List.foldl_cons, listStep_open st _ hopen,
          List.foldl_cons, listStep_ssid_line _ _ _ hs1 hs3,
          List.foldl_cons, listStep_fallback_psk_line,
          List.foldl_cons, listStep_close _ _ _ hbrace,
          List.foldl_cons, listStep_empty _ [] rfl, List.foldl_nil]
        simp [closeBlock, initBlock]
      · simp only [Bool.false_eq_true, if_false, if_true, List.append_nil,
          List.nil_append, List.cons_append, List.singleton_append]
        rw [List.foldl_cons, listStep_open st _ hopen,
          List.foldl_cons, listStep_ssid_line _ _ _ hs1 hs3,
          List.foldl_cons, listStep_scan_line,
          List.foldl_cons, listStep_fallback_psk_line,
          List.foldl_cons, listStep_close _ _ _ hbrace,
          List.foldl_cons, listStep_empty _ [] rfl, List.foldl_nil]
        simp [closeBlock, initBlock]
    · obtain ⟨hhsh1, hhsh2⟩ := htoolc hsh htool
      have hw : reqWpaOut r =
          some (wpaPassphraseOut r.ssid p hsh) := by
        rw [reqWpaOut, htool, hpv]
        rfl
      rw [genBlockLines_eq, hw, htr, hexp]
      rw [show ((match (some (wpaPassphraseOut r.ssid p hsh) : Option Str) with
          | some out => wpaKeptLines out
          | none => [strL "psk=\"" ++ (some p).getD [] ++ ['"']]) : List Str) =
          wpaKeptLines (wpaPassphraseOut r.ssid p hsh) from rfl]
      rw [wpaKeptLines_canonical r.ssid p hsh hs4 hp_nl hhsh1 hhsh2]
      rw [show (List.map (fun l => strL "    " ++ l)
          [strL "ssid=\"" ++ r.ssid ++ ['"'], strL "psk=" ++ hsh, strL "\x7d"]) =
          [strL "    ssid=\"" ++ r.ssid ++ ['"'],
           strL "    " ++ (strL "psk=" ++ hsh), strL "    \x7d"] from by
        simp only [List.map_cons, List.map_nil]
        rfl]
      cases hh : r.hidden
      · simp only [Bool.false_eq_true, if_false, if_true, List.append_nil,
          List.nil_append, List.cons_append, List.singleton_append]
        rw [List.foldl_cons, listStep_open st _ hopen,
          List.foldl_cons, listStep_ssid_line _ _ _ hs1 hs3,
          List.foldl_cons, listStep_ssid_line _ _ _ hs1 hs3,
          List.foldl_cons, listStep_tool_psk_line _ _ _ hhsh1,
          List.foldl_cons, listStep_close _ _ _ hbrace2,
          List.foldl_cons, listStep_outside_skip _ _ (by decide),
          List.foldl_cons, listStep_empty _ [] rfl, List.foldl_nil]
        simp [closeBlock, initBlock]
      · simp only [Bool.false_eq_true, if_false, if_true, List.append_nil,
          List.nil_append, List.cons_append, List.singleton_append]
        rw [List.foldl_cons, listStep_open st _ hopen,
          List.foldl_cons, listStep_ssid_line _ _ _ hs1 hs3,
          List.foldl_cons, listStep_scan_line,
          List.foldl_cons, listStep_ssid_line _ _ _ hs1 hs3,
          List.foldl_cons, listStep_tool_psk_line _ _ _ hhsh1,
          List.foldl_cons, listStep_close _ _ _ hbrace2,
          List.foldl_cons, listStep_outside_skip _ _ (by decide),
          List.foldl_cons, listStep_empty _ [] rfl, List.foldl_nil]
        simp [closeBlock, initBlock]

lemma genBlockLines_no_newline (r : AddReq) (hOK : reqOKb r = true) :
    ∀ l ∈ genBlockLines r.ssid (reqPskValue r) r.hidden (reqWpaOut r),
      '\n' ∉ l := by
  obtain ⟨hs1, hs2, hs3, hs4, hpskn, htoolc⟩ := reqOKb_parts r hOK
  have hssid : '\n' ∉ strL "    ssid=\"" ++ r.ssid ++ ['"'] :=
    no_newline_sandwich _ _ _ (by decide) hs4 (by decide)
  rcases hpv : reqPskValue r with _ | p
  · rw [genBlockLines_eq, show pskTruthy none = false from rfl]
    cases hh : r.hidden <;>
      simp only [Bool.false_eq_true, if_false, if_true, List.append_nil,
        List.nil_append, List.cons_append, List.singleton_append] <;>
      intro l hl <;>
      simp only [List.mem_cons, List.not_mem_nil, or_false] at hl
    · rcases hl with rfl | rfl | rfl | rfl
      · decide
      · exact hssid
      · decide
      · decide
    · rcases hl with rfl | rfl | rfl | rfl | rfl
      · decide
      · exact hssid
      · decide
      · decide
      · decide
  · obtain ⟨p0, hp0, hpp0⟩ := reqPskValue_from r p hpv
    have hp_nl : '\n' ∉ p := fun hm =>
      hpskn p0 hp0 ((pyStrip_sublist p0).subset (hpp0 ▸ hm))
    have htr := (reqPskValue_some r p hpv).2
    have hfall : '\n' ∉ strL "    psk=\"" ++ p ++ ['"'] :=
      no_newline_sandwich _ _ _ (by decide) hp_nl (by decide)
    rcases htool : r.toolHash with _ | hsh
    · have hw : reqWpaOut r = none := by rw [reqWpaOut, htool]; rfl
      rw [genBlockLines_eq, hw, htr]
      rw [show ((match (none : Option Str) with
          | some out => wpaKeptLines out
          | none => [strL "psk=\"" ++ (some p).getD [] ++ ['"']]) : List Str) =
          [strL "psk=\"" ++ p ++ ['"']] from rfl]
      rw [show (List.map (fun l => strL "    " ++ l)
          [strL "psk=\"" ++ p ++ ['"']]) =
          [strL "    psk=\"" ++ p ++ ['"']] from by
        simp only [List.map_cons, List.map_nil]
        rfl]
      cases hh : r.hidden <;>
        simp only [Bool.false_eq_true, if_false, if_true, List.append_nil,
          List.nil_append, List.cons_append, List.singleton_append] <;>
        intro l hl <;>
        simp only [List.mem_cons, List.not_mem_nil, or_false] at hl
      · rcases hl with rfl | rfl | rfl | rfl
        · decide
        · exact hssid
        · exact hfall
        · decide
      · rcases hl with rfl | rfl | rfl | rfl | rfl
        · decide
        · exact hssid
        · decide
        · exact hfall
        · decide
    · obtain ⟨hhsh1, hhsh2⟩ := htoolc hsh htool
      have hw : reqWpaOut r = some (wpaPassphraseOut r.ssid p hsh) := by
        rw [reqWpaOut, htool, hpv]
        rfl
      have htoolpsk : '\n' ∉ strL "    " ++ (strL "psk=" ++ hsh) := by
        intro hm
        rcases List.mem_append.mp hm with hc | hc
        · exact absurd hc (by decide)
        · rcases List.mem_append.mp hc with hc2 | hc2
          · exact absurd hc2 (by decide)
          · exact hhsh2 hc2
      rw [genBlockLines_eq, hw, htr]
      rw [show ((match (some (wpaPassphraseOut r.ssid p hsh) : Option Str) with
          | some out => wpaKeptLines out
          | none => [strL "psk=\"" ++ (some p).getD [] ++ ['"']]) : List Str) =
          wpaKeptLines (wpaPassphraseOut r.ssid p hsh) from rfl]
      rw [wpaKeptLines_canonical r.ssid p hsh hs4 hp_nl hhsh1 hhsh2]
      rw [show (List.map (fun l => strL "    " ++ l)
          [strL "ssid=\"" ++ r.ssid ++ ['"'], strL "psk=" ++ hsh, strL "\x7d"]) =
          [strL "    ssid=\"" ++ r.ssid ++ ['"'],
           strL "    " ++ (strL "psk=" ++ hsh), strL "    \x7d"] from by
        simp only [List.map_cons, List.map_nil]
        rfl]
      cases hh : r.hidden <;>
        simp only [Bool.false_eq_true, if_false, if_true, List.append_nil,
          List.nil_append, List.cons_append, List.singleton_append] <;>
        intro l hl <;>
        simp only [List.mem_cons, List.not_mem_nil, or_false] at hl
      · rcases hl with rfl | rfl | rfl | rfl | rfl | rfl
        · decide
        · exact hssid
        · exact hssid
        · exact htoolpsk
        · decide
        · decide
      · rcases hl with rfl | rfl | rfl | rfl | rfl | rfl | rfl
        · decide
        · exact hssid
        · decide
        · exact hssid
        · exact htoolpsk
        · decide
        · decide

lemma genBlockLines_ne_nil (S : Str) (psk : Option Str) (hidden : Bool)
    (wpaOut : Option Str) : genBlockLines S psk hidden wpaOut ≠ [] := by
  rw [genBlockLines_eq]
  simp

lemma splitLines_addBlock (f : Str) (r : AddReq) (hOK : reqOKb r = true) :
    splitLines (appendWifi f (generate_network_block r.ssid (reqPskValue r)
        r.hidden (reqWpaOut r))) =
      splitLines f ++
        (genBlockLines r.ssid (reqPskValue r) r.hidden (reqWpaOut r) ++ [[]]) := by
  rw [appendWifi, generate_network_block, splitLines_append, splitLines_append,
    splitLines_joinNL _ (genBlockLines_ne_nil _ _ _ _)
      (genBlockLines_no_newline r hOK),
    show splitLines ([] : Str) = [[]] from rfl]

lemma addNetworkFile_eq (f : Str) (r : AddReq) (hOK : reqOKb r = true)
    (hex : wifi_network_exists f r.ssid = false) :
    addNetworkFile f r = appendWifi f
      (generate_network_block r.ssid (reqPskValue r) r.hidden (reqWpaOut r)) := by
  obtain ⟨hs1, hs2, _, _, _, _⟩ := reqOKb_parts r hOK
  have hne : r.ssid.isEmpty = false := by
    cases h0 : r.ssid with
    | nil => exact absurd h0 hs1
    | cons a t => rfl
  rw [addNetworkFile, api_wifi_post]
  simp only [Option.getD_some, hs2, hne, Bool.false_eq_true, if_false, hex]
  rfl

lemma list_after_add (f : Str) (r : AddReq) (hOK : reqOKb r = true)
    (hex : wifi_network_exists f r.ssid = false) :
    list_wifi_networks (addNetworkFile f r) =
      list_wifi_networks f ++ [expectedRecord r] := by
  rw [list_wifi_networks, addNetworkFile_eq f r hOK hex,
    splitLines_addBlock f r hOK, List.foldl_append, foldl_genBlock r hOK]
  rfl

lemma addAllOK_cons (f : Str) (r : AddReq) (rs : List AddReq)
    (h : addAllOK f (r :: rs) = true) :
    reqOKb r = true ∧ wifi_network_exists f r.ssid = false ∧
      addAllOK (addNetworkFile f r) rs = true := by
  rw [addAllOK] at h
  simp only [Bool.and_eq_true] at h
  refine ⟨h.1.1, ?_, h.2⟩
  have := h.1.2
  simpa using this

lemma list_after_adds (reqs : List AddReq) :
    ∀ f : Str, addAllOK f reqs = true →
    list_wifi_networks (List.foldl addNetworkFile f reqs) =
      list_wifi_networks f ++ reqs.map expectedRecord := by
  induction reqs with
  | nil => intro f _; simp
  | cons r rs ih =>
    intro f h
    obtain ⟨h1, h2, h3⟩ := addAllOK_cons f r rs h
    rw [List.foldl_cons, ih _ h3, list_after_add f r h1 h2, List.map_cons]
    simp

-- Claim C1.

/-- C1 (counterexample): two POSTed requests with distinct nonempty ssids A
and B, where the first carries the passphrase ssid="B" and its passphrase
tool run fails (so the plaintext fallback writes psk="ssid="B"" into the
file), leave the list with a single record: the later legitimate addition
of B is suppressed because the substring-based existence check finds the
needle inside the stored plaintext psk.  Moreover the surviving record's
security label is unknown, not a protected-network label, because neither
generated block carries a key_mgmt line. -/
theorem C1_counterexample :
    ([AddReq.mk (strL "A") (some (strL "ssid=\"B\"")) false none,
      AddReq.mk (strL "B") none false none].map AddReq.ssid).Nodup ∧
    (∀ r0 ∈ [AddReq.mk (strL "A") (some (strL "ssid=\"B\"")) false none,
      AddReq.mk (strL "B") none false none], r0.ssid ≠ []) ∧
    list_wifi_networks (buildWifiFile
      [AddReq.mk (strL "A") (some (strL "ssid=\"B\"")) false none,
       AddReq.mk (strL "B") none false none]) =
      [⟨strL "A", false, strL "unknown", none, none⟩] := by
  refine ⟨by decide, by decide, by decide⟩

/-- C1 (amended): for every finite sequence of POST api_wifi additions
applied to an initially empty credentials file, whose ssids are nonempty,
already whitespace-trimmed and free of quote and newline characters, whose
psks and tool hashes carry no newline, and where no request's quoted-ssid
needle already occurs in the file built so far (in particular the ssids are
pairwise distinct and no earlier psk embeds a later needle), list() returns
exactly one record per request, in append order, with ssid and hidden equal
to the request arguments and security open exactly when no psk was kept:
a psk-protected network reads back with the label unknown, since neither
the passphrase tool output nor the plaintext fallback emits key_mgmt. -/
theorem C1_list_matches_requests (reqs : List AddReq)
    (h : addAllOK [] reqs = true) :
    list_wifi_networks (buildWifiFile reqs) = reqs.map expectedRecord := by
  rw [buildWifiFile, list_after_adds reqs [] h,
    show list_wifi_networks ([] : Str) = [] from by decide]
  simp

/-- C1 (witness): a hidden protected network added through a successful
tool run followed by an open network, read back in order. -/
theorem C1_witness :
    addAllOK [] [AddReq.mk (strL "Home") (some (strL "secret123")) true
        (some (strL "ab12cd")),
      AddReq.mk (strL "Cafe") none false none] = true ∧
    list_wifi_networks (buildWifiFile
      [AddReq.mk (strL "Home") (some (strL "secret123")) true
        (some (strL "ab12cd")),
       AddReq.mk (strL "Cafe") none false none]) =
      [AddReq.mk (strL "Home") (some (strL "secret123")) true
        (some (strL "ab12cd")),
       AddReq.mk (strL "Cafe") none false none].map expectedRecord := by
  refine ⟨by decide, ?_⟩
  exact C1_list_matches_requests _ (by decide)

-- Claim C3.

/-- C3 (counterexample): a file holding one block whose ssid line is
unquoted (ssid=Home) parses to a single record, so the file has no
duplicate ssids; a POST api_wifi for the same ssid Home is not caught by
the substring check (which looks for the quoted needle ssid="Home"), the
block is appended, and the file now lists two blocks with the same ssid. -/
theorem C3_counterexample :
    ((list_wifi_networks (strL "network=\x7b\nssid=Home\n\x7d\n")).map
        WifiNetwork.ssid).Nodup ∧
    (list_wifi_networks (addNetworkFile
        (strL "network=\x7b\nssid=Home\n\x7d\n")
        (AddReq.mk (strL "Home") none false none))).map WifiNetwork.ssid =
      [strL "Home", strL "Home"] ∧
    ¬ ((list_wifi_networks (addNetworkFile
        (strL "network=\x7b\nssid=Home\n\x7d\n")
        (AddReq.mk (strL "Home") none false none))).map
        WifiNetwork.ssid).Nodup := by
  refine ⟨by decide, by decide, by decide⟩

/-- C3 (amended): POST api_wifi preserves ssid uniqueness provided every
parsed network ssid of the file also occurs in the file in the generator's
literal quoted form ssid="<ssid>" (as every block written by the service
does); then an ssid already present yields the exists response and no
block is appended, and an appended block contributes a fresh ssid, so a
file without duplicate ssids still has none after the request.  The
request ssid is assumed nonempty, trimmed, and free of quote and newline
characters, with newline-free psk and tool hash. -/
theorem C3_uniqueness_preserved (file : Str) (r : AddReq)
    (hOK : reqOKb r = true)
    (hneedles : ∀ w ∈ list_wifi_networks file,
      wifi_network_exists file w.ssid = true)
    (hnd : ((list_wifi_networks file).map WifiNetwork.ssid).Nodup) :
    ((list_wifi_networks (addNetworkFile file r)).map WifiNetwork.ssid).Nodup := by
  by_cases hex : wifi_network_exists file r.ssid = true
  · have hfile : addNetworkFile file r = file := by
      obtain ⟨hs1, hs2, _, _, _, _⟩ := reqOKb_parts r hOK
      have hne : r.ssid.isEmpty = false := by
        cases h0 : r.ssid with
        | nil => exact absurd h0 hs1
        | cons a t => rfl
      rw [addNetworkFile, api_wifi_post]
      simp only [Option.getD_some, hs2, hne, Bool.false_eq_true, if_false,
        hex, if_true]
    rw [hfile]
    exact hnd
  · have hx : wifi_network_exists file r.ssid = false := by simpa using hex
    rw [list_after_add file r hOK hx, List.map_append]
    refine List.Nodup.append hnd (by simp) ?_
    intro x hx1 hx2
    obtain ⟨w, hw, he⟩ := List.mem_map.mp hx1
    have hxe : x = r.ssid := by simpa [expectedRecord] using hx2
    have hcontra := hneedles w hw
    rw [he, hxe] at hcontra
    rw [hcontra] at hx
    exact Bool.noConfusion hx

/-- C3 (witness): adding ssid B to a file produced by the service for ssid
A keeps the listed ssids duplicate-free. -/
theorem C3_witness :
    ((list_wifi_networks (addNetworkFile
        (buildWifiFile [AddReq.mk (strL "A") none false none])
        (AddReq.mk (strL "B") none false none))).map WifiNetwork.ssid).Nodup :=
  C3_uniqueness_preserved _ _ (by decide) (by decide) (by decide)

-- Claim C7.

/-- C7: the append path of POST api_wifi writes exactly a newline, the
block and a newline after the existing content, so the prior content is
preserved unchanged as a prefix, the line decomposition of the new file is
the old lines followed by the block lines and one empty trailing piece,
and when the write raises, a validated ssid request is answered with HTTP
500 whose error field carries the underlying failure message and whose
file is unchanged. -/
theorem C7_append_semantics (file block msg ssid : Str) (pskIn : Option Str)
    (hiddenIn : Str ⊕ Bool) (wpaOut : Option Str)
    (h1 : pyStrip ssid = ssid) (h2 : ssid ≠ [])
    (h3 : wifi_network_exists file ssid = false) :
    appendWifi file block = file ++ '\n' :: (block ++ ['\n']) ∧
    splitLines (appendWifi file block) =
      splitLines file ++ splitLines block ++ [[]] ∧
    (appendWifi file block).take file.length = file ∧
    api_wifi_post file (some ssid) pskIn hiddenIn wpaOut (some msg) =
      ⟨500, strL "error", some msg, none, file⟩ := by
  have hne : ssid.isEmpty = false := by
    cases h0 : ssid with
    | nil => exact absurd h0 h2
    | cons a t => rfl
  refine ⟨rfl, ?_, ?_, ?_⟩
  · rw [appendWifi, splitLines_append, splitLines_append,
      show splitLines ([] : Str) = [[]] from rfl]
    simp
  · rw [appendWifi, show (file ++ '\n' :: (block ++ ['\n'])).take file.length =
      file from List.take_left file _]
  · rw [api_wifi_post]
    simp only [Option.getD_some, h1, hne, Bool.false_eq_true, if_false, h3]

/-- C7 (witness): concrete append and write-failure behaviour. -/
theorem C7_witness :
    pyStrip (strL "Net") = strL "Net" ∧ strL "Net" ≠ [] ∧
    wifi_network_exists (strL "x\n") (strL "Net") = false ∧
    (appendWifi (strL "x\n") (strL "b") = strL "x\n" ++ '\n' :: (strL "b" ++ ['\n']) ∧
     splitLines (appendWifi (strL "x\n") (strL "b")) =
       splitLines (strL "x\n") ++ splitLines (strL "b") ++ [[]] ∧
     (appendWifi (strL "x\n") (strL "b")).take (strL "x\n").length = strL "x\n" ∧
     api_wifi_post (strL "x\n") (some (strL "Net")) none (Sum.inr false) none
        (some (strL "disk full")) =
       ⟨500, strL "error", some (strL "disk full"), none, strL "x\n"⟩) :=
  ⟨by decide, by decide, by decide,
    C7_append_semantics _ _ _ _ _ _ _ (by decide) (by decide) (by decide)⟩

-- Claim C10.

/-- C10: in POST api_wifi a psk that is absent, empty, or whitespace-only
is normalised to no-psk, so the generated and appended block is the open
network block: it contains the key_mgmt=NONE line and none of its lines
begins, after stripping, with psk=. -/
theorem C10_blank_psk_open (file ssid : Str) (pskIn : Option Str)
    (hiddenIn : Str ⊕ Bool) (wpaOut : Option Str)
    (h1 : pyStrip ssid = ssid) (h2 : ssid ≠ [])
    (h3 : wifi_network_exists file ssid = false)
    (hpsk : pskIn = none ∨ ∃ p, pskIn = some p ∧ pyStrip p = []) :
    (api_wifi_post file (some ssid) pskIn hiddenIn wpaOut none).file =
      appendWifi file
        (generate_network_block ssid none (parseHidden hiddenIn) wpaOut) ∧
    strL "    key_mgmt=NONE" ∈
      genBlockLines ssid none (parseHidden hiddenIn) wpaOut ∧
    ∀ l ∈ genBlockLines ssid none (parseHidden hiddenIn) wpaOut,
      (strL "psk=").isPrefixOf (pyStrip l) = false := by
  have hne : ssid.isEmpty = false := by
    cases h0 : ssid with
    | nil => exact absurd h0 h2
    | cons a t => rfl
  refine ⟨?_, ?_, ?_⟩
  · rw [api_wifi_post]
    simp only [Option.getD_some, h1, hne, Bool.false_eq_true, if_false, h3]
    rcases hpsk with hp | ⟨p, hp, hps⟩
    · rw [hp]
      rfl
    · rw [hp, show Option.map pyStrip (some p) = some (pyStrip p) from rfl, hps]
      rfl
  · rw [genBlockLines_eq, show pskTruthy none = false from rfl]
    cases parseHidden hiddenIn <;> simp
  · rw [genBlockLines_eq, show pskTruthy none = false from rfl]
    intro l hl
    have hcases : l = strL "network=\x7b" ∨
        l = strL "    ssid=\"" ++ ssid ++ ['"'] ∨
        l = strL "    scan_ssid=1" ∨ l = strL "    key_mgmt=NONE" ∨
        l = strL "\x7d" := by
      by_cases hph : parseHidden hiddenIn = true
      · simp only [hph, if_true, Bool.false_eq_true, if_false, List.append_nil,
          List.nil_append, List.cons_append, List.singleton_append,
          List.mem_cons, List.not_mem_nil, or_false] at hl
        tauto
      · have hph2 : parseHidden hiddenIn = false := by simpa using hph
        simp only [hph2, Bool.false_eq_true, if_false, List.append_nil,
          List.nil_append, List.cons_append, List.singleton_append,
          List.mem_cons, List.not_mem_nil, or_false] at hl
        tauto
    rcases hcases with rfl | rfl | rfl | rfl | rfl
    · decide
    · have hps : pyStrip (strL "    " ++ (strL "ssid=\"" ++ ssid ++ ['"'])) =
          strL "ssid=\"" ++ ssid ++ ['"'] :=
        pyStrip_pad_sandwich (strL "    ") (strL "ssid=\"") ssid '"'
          (by decide) ⟨'s', strL "sid=\"", rfl, by decide⟩ (by decide)
      rw [show strL "    ssid=\"" ++ ssid ++ ['"'] =
        strL "    " ++ (strL "ssid=\"" ++ ssid ++ ['"']) from rfl, hps,
        show strL "ssid=\"" ++ ssid ++ ['"'] =
          's' :: (strL "sid=\"" ++ ssid ++ ['"']) from rfl,
        show (strL "psk=" : Str) = 'p' :: strL "sk=" from rfl]
      exact isPrefixOf_cons_ne _ _ _ _ (by decide)
    · decide
    · decide
    · decide

/-- C10 (witness): a whitespace-only psk produces the open-network block. -/
theorem C10_witness :
    pyStrip (strL "Net") = strL "Net" ∧ strL "Net" ≠ [] ∧
    wifi_network_exists [] (strL "Net") = false ∧
    ((api_wifi_post [] (some (strL "Net")) (some (strL "   ")) (Sum.inr false)
        none none).file =
      appendWifi [] (generate_network_block (strL "Net") none
        (parseHidden (Sum.inr false)) none) ∧
     strL "    key_mgmt=NONE" ∈
       genBlockLines (strL "Net") none (parseHidden (Sum.inr false)) none ∧
     ∀ l ∈ genBlockLines (strL "Net") none (parseHidden (Sum.inr false)) none,
       (strL "psk=").isPrefixOf (pyStrip l) = false) :=
  ⟨by decide, by decide, by decide,
    C10_blank_psk_open _ _ _ _ _ (by decide) (by decide) (by decide)
      (Or.inr ⟨strL "   ", rfl, by decide⟩)⟩

-- Claim C8.

/-- C8: for every ssid, every initial file content, every psk and hidden
argument and every outcome of the passphrase tool, the generated block
contains the literal line ssid="<ssid>", so immediately after the append
the existence check finds its needle in the file and returns true. -/
theorem C8_exists_after_append (file ssid : Str) (psk : Option Str)
    (hidden : Bool) (wpaOut : Option Str) :
    wifi_network_exists
      (appendWifi file (generate_network_block ssid psk hidden wpaOut))
      ssid = true := by
  rw [wifi_network_exists, appendWifi, generate_network_block,
    genBlockLines_eq]
  simp only [List.cons_append, List.nil_append]
  rw [joinNL_cons _ _ (by simp)]
  rw [joinNL_cons _ _ (by simp)]
  rw [show strL "    ssid=\"" ++ ssid ++ ['"'] =
    strL "    " ++ (strL "ssid=\"" ++ ssid ++ ['"']) from rfl]
  have heq : file ++ '\n' ::
      ((strL "network=\x7b" ++ '\n' ::
        (strL "    " ++ (strL "ssid=\"" ++ ssid ++ ['"']) ++ '\n' ::
          joinNL ((if hidden then [strL "    scan_ssid=1"] else []) ++
            (if pskTruthy psk then
              (match wpaOut with
               | some out => wpaKeptLines out
               | none => [strL "psk=\"" ++ psk.getD [] ++ ['"']]).map
                 (fun l => strL "    " ++ l)
             else [strL "    key_mgmt=NONE"]) ++ [strL "\x7d"]))) ++ ['\n']) =
      (file ++ '\n' :: (strL "network=\x7b" ++ '\n' :: strL "    ")) ++
        (strL "ssid=\"" ++ ssid ++ ['"']) ++
        ('\n' :: (joinNL ((if hidden then [strL "    scan_ssid=1"] else []) ++
            (if pskTruthy psk then
              (match wpaOut with
               | some out => wpaKeptLines out
               | none => [strL "psk=\"" ++ psk.getD [] ++ ['"']]).map
                 (fun l => strL "    " ++ l)
             else [strL "    key_mgmt=NONE"]) ++ [strL "\x7d"]) ++ ['\n'])) := by
    simp [List.append_assoc]
  rw [heq]
  exact containsSub_append_right _ _ _

lemma scan_ne_ssid_line (S : Str) :
    strL "    scan_ssid=1" ≠ strL "    ssid=\"" ++ S ++ ['"'] := by
  intro e
  rw [show (strL "    scan_ssid=1" : Str) =
      ' ' :: ' ' :: ' ' :: ' ' :: 's' :: 'c' :: strL "an_ssid=1" from rfl,
    show strL "    ssid=\"" ++ S ++ ['"'] =
      ' ' :: ' ' :: ' ' :: ' ' :: 's' :: 's' :: (strL "id=\"" ++ S ++ ['"'])
      from rfl] at e
  injection e with h e
  injection e with h e
  injection e with h e
  injection e with h e
  injection e with h e
  injection e with h e
  exact absurd h (by decide)

lemma scan_notin_block (ssid : Str) (psk : Option Str) (wpaOut : Option Str)
    (htool : ∀ out, wpaOut = some out →
      ∀ l ∈ wpaKeptLines out, l ≠ strL "scan_ssid=1") :
    strL "    scan_ssid=1" ∉ genBlockLines ssid psk false wpaOut := by
  rw [genBlockLines_eq]
  intro hmem
  simp only [Bool.false_eq_true, if_false, List.append_nil, List.nil_append,
    List.cons_append, List.singleton_append, List.mem_cons,
    List.mem_append, List.not_mem_nil, or_false] at hmem
  rcases hmem with he | he | he | he
  · exact absurd he (by decide)
  · exact scan_ne_ssid_line ssid he
  · by_cases hps : pskTruthy psk = true
    · rw [if_pos hps] at he
      obtain ⟨l, hl, hle⟩ := List.mem_map.mp he
      have hcore : l = strL "scan_ssid=1" := by
        have h0 : strL "    " ++ l = strL "    " ++ strL "scan_ssid=1" := by
          rw [hle]
          rfl
        exact List.append_cancel_left h0
      cases hwa : wpaOut with
      | some out =>
        rw [hwa] at hl
        exact htool out hwa l hl hcore
      | none =>
        rw [hwa] at hl
        have hfl : l = strL "psk=\"" ++ psk.getD [] ++ ['"'] := by
          simpa using hl
        rw [hfl] at hcore
        rw [show strL "psk=\"" ++ psk.getD [] ++ ['"'] =
          'p' :: (strL "sk=\"" ++ psk.getD [] ++ ['"']) from rfl,
          show (strL "scan_ssid=1" : Str) = 's' :: strL "can_ssid=1"
          from rfl] at hcore
        injection hcore with h1 _
        exact absurd h1 (by decide)
    · have hps2 : pskTruthy psk = false := by simpa using hps
      simp only [hps2, Bool.false_eq_true, if_false] at he
      have : strL "    scan_ssid=1" = strL "    key_mgmt=NONE" := by
        simpa using he
      exact absurd this (by decide)
  · exact absurd he (by decide)

-- Claim C6.

/-- C6: the generated block always contains the line ssid="<ssid>"; it
contains the line scan_ssid=1 exactly when hidden is true, granted the
stdout kept from a successful passphrase tool run contains no scan_ssid=1
line of its own (the real tool prints only the frame, the ssid line, a psk
comment and psk lines); when psk is absent the block contains
key_mgmt=NONE; when a nonempty psk is given and the tool fails, the block
contains the verbatim plaintext line psk="<psk>". -/
theorem C6_generate_block (ssid : Str) (psk : Option Str) (hidden : Bool)
    (wpaOut : Option Str)
    (htool : ∀ out, wpaOut = some out →
      ∀ l ∈ wpaKeptLines out, l ≠ strL "scan_ssid=1") :
    ((strL "    ssid=\"" ++ ssid ++ ['"']) ∈
      genBlockLines ssid psk hidden wpaOut) ∧
    ((strL "    scan_ssid=1" ∈ genBlockLines ssid psk hidden wpaOut) ↔
      hidden = true) ∧
    (psk = none →
      strL "    key_mgmt=NONE" ∈ genBlockLines ssid psk hidden wpaOut) ∧
    (∀ p, psk = some p → p ≠ [] → wpaOut = none →
      (strL "    psk=\"" ++ p ++ ['"']) ∈
        genBlockLines ssid psk hidden wpaOut) := by
  refine ⟨?_, ?_, ?_, ?_⟩
  · rw [genBlockLines_eq]
    simp
  · cases hh : hidden
    · simp only [Bool.false_eq_true, iff_false]
      exact scan_notin_block ssid psk wpaOut htool
    · simp only [iff_true]
      rw [genBlockLines_eq]
      simp
  · intro hp
    rw [hp, genBlockLines_eq, show pskTruthy none = false from rfl]
    cases hidden <;> simp
  · intro p hp hpne hw
    rw [hp, hw, genBlockLines_eq]
    have hps : pskTruthy (some p) = true := by
      cases hc : p with
      | nil => exact absurd hc hpne
      | cons a t => rfl
    rw [hps, if_pos rfl]
    rw [show (List.map (fun l => strL "    " ++ l)
        ((match (none : Option Str) with
          | some out => wpaKeptLines out
          | none => [strL "psk=\"" ++ (some p).getD [] ++ ['"']]) : List Str)) =
        [strL "    psk=\"" ++ p ++ ['"']] from by
      simp only [List.map_cons, List.map_nil]
      rfl]
    cases hidden <;> simp

/-- C6 (witness): concrete block generation for a hidden protected network
whose passphrase tool run succeeded with the canonical output. -/
theorem C6_witness :
    ((strL "    ssid=\"" ++ strL "Home" ++ ['"']) ∈
      genBlockLines (strL "Home") (some (strL "pw12345")) true
        (some (wpaPassphraseOut (strL "Home") (strL "pw12345") (strL "ab12")))) ∧
    ((strL "    scan_ssid=1" ∈
      genBlockLines (strL "Home") (some (strL "pw12345")) true
        (some (wpaPassphraseOut (strL "Home") (strL "pw12345") (strL "ab12")))) ↔
      true = true) ∧
    ((some (strL "pw12345") : Option Str) = none →
      strL "    key_mgmt=NONE" ∈
        genBlockLines (strL "Home") (some (strL "pw12345")) true
          (some (wpaPassphraseOut (strL "Home") (strL "pw12345") (strL "ab12")))) ∧
    (∀ p, (some (strL "pw12345") : Option Str) = some p → p ≠ [] →
      (some (wpaPassphraseOut (strL "Home") (strL "pw12345") (strL "ab12")) :
        Option Str) = none →
      (strL "    psk=\"" ++ p ++ ['"']) ∈
        genBlockLines (strL "Home") (some (strL "pw12345")) true
          (some (wpaPassphraseOut (strL "Home") (strL "pw12345") (strL "ab12")))) :=
  C6_generate_block (strL "Home") (some (strL "pw12345")) true
    (some (wpaPassphraseOut (strL "Home") (strL "pw12345") (strL "ab12")))
    (by decide)

-- Claim C5: equivalence of list_wifi_networks with the spec state machine.

lemma listStep_skip_in (b : BlockAcc) (acc : List WifiNetwork) (raw : Str)
    (hnet : (strL "network=\x7b").isPrefixOf (pyStrip raw) = false)
    (hclose : ¬ pyStrip raw = strL "\x7d")
    (hskip : ((pyStrip raw).isEmpty ||
      (strL "#").isPrefixOf (pyStrip raw)) = true) :
    listStep (some b, acc) raw = (some b, acc) := by
  simp only [listStep, hnet, Bool.false_eq_true, if_false, eq_false hclose,
    hskip, if_true]

lemma listStep_nokv (b : BlockAcc) (acc : List WifiNetwork) (raw : Str)
    (hnet : (strL "network=\x7b").isPrefixOf (pyStrip raw) = false)
    (hclose : ¬ pyStrip raw = strL "\x7d")
    (hskip : ((pyStrip raw).isEmpty ||
      (strL "#").isPrefixOf (pyStrip raw)) = false)
    (hsf : splitFirst '=' (pyStrip raw) = none) :
    listStep (some b, acc) raw = (some b, acc) := by
  simp only [listStep, hnet, Bool.false_eq_true, if_false, eq_false hclose,
    hskip, hsf]

lemma listStep_kv2 (b : BlockAcc) (acc : List WifiNetwork) (raw : Str)
    (kv : Str × Str)
    (hnet : (strL "network=\x7b").isPrefixOf (pyStrip raw) = false)
    (hclose : ¬ pyStrip raw = strL "\x7d")
    (hskip : ((pyStrip raw).isEmpty ||
      (strL "#").isPrefixOf (pyStrip raw)) = false)
    (hsf : splitFirst '=' (pyStrip raw) = some kv) :
    listStep (some b, acc) raw =
      (some (applyKey b (pyStrip kv.1) (stripChar '"' (pyStrip kv.2))), acc) := by
  simp only [listStep, hnet, Bool.false_eq_true, if_false, eq_false hclose,
    hskip, hsf]

lemma applyKey_eq_specApplyKey : applyKey = specApplyKey := rfl

lemma listSpec_fold (ls : List Str) :
    ∀ (st : Option BlockAcc) (acc : List WifiNetwork),
    (List.foldl listStep (st, acc) ls).2 = acc ++ listSpecMachine st ls := by
  induction ls with
  | nil => intro st acc; simp [listSpecMachine]
  | cons raw t ih =>
    intro st acc
    rw [List.foldl_cons]
    by_cases hnet : (strL "network=\x7b").isPrefixOf (pyStrip raw) = true
    · rw [listStep_open (st, acc) raw hnet,
        show listSpecMachine st (raw :: t) =
          listSpecMachine (some initBlock) t from by
        simp only [listSpecMachine, hnet, if_true]]
      exact ih _ _
    · have hnet2 : (strL "network=\x7b").isPrefixOf (pyStrip raw) = false := by
        simp only [Bool.not_eq_true] at hnet
        exact hnet
      cases st with
      | none =>
        rw [listStep_outside_skip acc raw hnet2,
          show listSpecMachine none (raw :: t) = listSpecMachine none t from by
          simp only [listSpecMachine, hnet2, Bool.false_eq_true, if_false]]
        exact ih _ _
      | some b =>
        by_cases hclose : pyStrip raw = strL "\x7d"
        · rw [listStep_close b acc raw hclose,
            show listSpecMachine (some b) (raw :: t) =
              (match closeBlock b with
               | some w => w :: listSpecMachine none t
               | none => listSpecMachine none t) from by
            simp only [listSpecMachine, hclose,
              show (strL "network=\x7b").isPrefixOf (strL "\x7d") = false
                from by decide,
              Bool.false_eq_true, if_false, eq_self_iff_true, if_true]]
          cases hcb : closeBlock b with
          | some w =>
            rw [ih _ _]
            simp
          | none =>
            rw [ih _ _]
        · by_cases hskip : ((pyStrip raw).isEmpty ||
              (strL "#").isPrefixOf (pyStrip raw)) = true
          · rw [listStep_skip_in b acc raw hnet2 hclose hskip,
              show listSpecMachine (some b) (raw :: t) =
                listSpecMachine (some b) t from by
              simp only [listSpecMachine, hnet2, Bool.false_eq_true, if_false,
                eq_false hclose, hskip, if_true]]
            exact ih _ _
          · have hskip2 : ((pyStrip raw).isEmpty ||
                (strL "#").isPrefixOf (pyStrip raw)) = false := by
              simp only [Bool.not_eq_true] at hskip
              exact hskip
            cases hsf : splitFirst '=' (pyStrip raw) with
            | none =>
              rw [listStep_nokv b acc raw hnet2 hclose hskip2 hsf,
                show listSpecMachine (some b) (raw :: t) =
                  listSpecMachine (some b) t from by
                simp only [listSpecMachine, hnet2, Bool.false_eq_true, if_false,
                  eq_false hclose, hskip2, hsf]]
              exact ih _ _
            | some kv =>
              rw [listStep_kv2 b acc raw kv hnet2 hclose hskip2 hsf,
                show listSpecMachine (some b) (raw :: t) =
                  listSpecMachine
                    (some (specApplyKey b (pyStrip kv.1)
                      (stripChar '"' (pyStrip kv.2)))) t from by
                simp only [listSpecMachine, hnet2, Bool.false_eq_true, if_false,
                  eq_false hclose, hskip2, hsf],
                applyKey_eq_specApplyKey]
              exact ih _ _

/-- C5: list_wifi_networks parses exactly as the specification describes:
for every input file its result coincides with the run of the two-state
line machine written from the words of the spec (block opening resets the
state, blocks lacking an ssid are discarded at the closing brace, blank,
comment and equals-free lines inside a block are skipped, the recognised
keys ssid, scan_ssid, key_mgmt, priority and disabled update the block
with quote-stripped values and integer parsing for priority, unknown keys
are ignored, records appear in file order). -/
theorem C5_list_matches_machine (content : Str) :
    list_wifi_networks content = listSpecMachine none (splitLines content) := by
  rw [list_wifi_networks]
  have h := listSpec_fold (splitLines content) none []
  simpa using h
